import Mathlib

/-!
Verification of the constraint-modeling and MiniZinc-emission layer of the
`uni-instr-sel` instruction-selection backend, together with its string
utilities.  C++ sources are shallowly embedded: `std::string` becomes
`List Char`, pointers become `Option`, exceptions become `Except String`,
and the mutable emitter object becomes explicit state passing.
-/

/-! ## String utilities (src/clib/common/utils/string.cpp and
src/solvers/common/utils/string.cpp) -/

/-- Embeds `Utils::isWhitespace(char)` from src/clib/common/utils/string.cpp:
a switch accepting space, newline, carriage return, tab, vertical tab and
form feed. -/
def ClibUtils.isWhitespace (c : Char) : Bool :=
  c = ' ' || c = '\n' || c = '\r' || c = '\t' || c = '\x0b' || c = '\x0c'

/-- Embeds `Utils::isWhitespace(char)` from src/solvers/common/utils/string.cpp
(the second copy of the utility). -/
def SolverUtils.isWhitespace (c : Char) : Bool :=
  c = ' ' || c = '\n' || c = '\r' || c = '\t' || c = '\x0b' || c = '\x0c'

/-- Embeds `Utils::isNumeric(char)` from src/clib/common/utils/string.cpp:
a switch accepting exactly the ten decimal digit characters. -/
def ClibUtils.isNumericChar (c : Char) : Bool :=
  c = '0' || c = '1' || c = '2' || c = '3' || c = '4' ||
  c = '5' || c = '6' || c = '7' || c = '8' || c = '9'

/-- Embeds `Utils::isNumeric(const string&)` from
src/clib/common/utils/string.cpp: the empty string is rejected; an optional
single leading minus sign is skipped; at least one digit must follow and
every remaining character must be a digit. -/
def ClibUtils.isNumeric (str : List Char) : Bool :=
  match str with
  | [] => false
  | c :: rest =>
    if c = '-' then
      match rest with
      | [] => false
      | d :: ds => ClibUtils.isNumericChar d && ds.all ClibUtils.isNumericChar
    else ClibUtils.isNumericChar c && rest.all ClibUtils.isNumericChar

/-- Value of a list of decimal digit characters, most significant first. -/
def digitsToNat (ds : List Char) : Nat :=
  ds.foldl (fun acc c => acc * 10 + (c.toNat - 48)) 0

/-- Character class of the C `isspace` function (C locale). -/
def cIsSpace (c : Char) : Bool :=
  c = ' ' || c = '\n' || c = '\r' || c = '\t' || c = '\x0b' || c = '\x0c'

/-- Modelled from the spec: `std::stoi`, which is called by `Utils::toInt`
but whose code is outside this repository.  Following the C++ standard
library semantics: leading whitespace is discarded, an optional sign is
consumed, the longest prefix of decimal digits is converted, conversion of
no digits is an error, and a value outside the range of `int` (32 bits on
the supported platforms) is an out-of-range error. -/
def stoi (s : List Char) : Except String Int :=
  let t := s.dropWhile cIsSpace
  let su : Int × List Char :=
    match t with
    | [] => (1, [])
    | c :: r => if c = '-' then (-1, r) else if c = '+' then (1, r) else (1, c :: r)
  let ds := su.2.takeWhile ClibUtils.isNumericChar
  if ds.isEmpty then Except.error "invalid argument"
  else
    let v : Int := su.1 * (digitsToNat ds : Int)
    if v < -2147483648 ∨ 2147483647 < v then Except.error "out of range"
    else Except.ok v

/-- Embeds `Utils::toInt` from src/clib/common/utils/string.cpp: throws
"Not a number" when `isNumeric` rejects the string, otherwise returns
`stoi(str)`. -/
def ClibUtils.toInt (str : List Char) : Except String Int :=
  if ClibUtils.isNumeric str then stoi str else Except.error "Not a number"

/-- Boolean test that `needle` is a prefix of `hay`. -/
def beginsWith : List Char → List Char → Bool
  | [], _ => true
  | _ :: _, [] => false
  | a :: as, b :: bs => a = b && beginsWith as bs

/-- Models `std::string::find(search, pos)`: the smallest index `i ≥ pos`
(with `i ≤ hay.length`) at which `search` occurs in `hay`, or `none`. -/
def stringFind (hay needle : List Char) (pos : Nat) : Option Nat :=
  if h : pos ≤ hay.length then
    if beginsWith needle (hay.drop pos) then some pos
    else stringFind hay needle (pos + 1)
  else none
termination_by hay.length + 1 - pos

theorem beginsWith_iff (n h : List Char) :
    beginsWith n h = true ↔ ∃ t, h = n ++ t := by
  induction n generalizing h with
  | nil => simp [beginsWith]
  | cons a as ih =>
    cases h with
    | nil => simp [beginsWith]
    | cons b bs =>
      simp only [beginsWith, Bool.and_eq_true, decide_eq_true_eq, ih,
        List.cons_append, List.cons.injEq]
      constructor
      · rintro ⟨hab, t, ht⟩
        exact ⟨t, hab.symm, ht⟩
      · rintro ⟨t, hab, ht⟩
        exact ⟨hab.symm, t, ht⟩

theorem beginsWith_length_le {n h : List Char} (hb : beginsWith n h = true) :
    n.length ≤ h.length := by
  obtain ⟨t, rfl⟩ := (beginsWith_iff n h).mp hb
  simp

theorem stringFind_eq_some {hay needle : List Char} {pos i : Nat}
    (h : stringFind hay needle pos = some i) :
    pos ≤ i ∧ i ≤ hay.length ∧ beginsWith needle (hay.drop i) = true ∧
      ∀ j, pos ≤ j → j < i → beginsWith needle (hay.drop j) = false := by
  by_cases hp : pos ≤ hay.length
  · rw [stringFind, dif_pos hp] at h
    by_cases hb : beginsWith needle (hay.drop pos) = true
    · rw [if_pos hb] at h
      obtain rfl : pos = i := Option.some.injEq _ _ ▸ h
      exact ⟨le_refl _, hp, hb, fun j h1 h2 => absurd (lt_of_le_of_lt h1 h2) (lt_irrefl _)⟩
    · rw [if_neg hb] at h
      obtain ⟨h1, h2, h3, h4⟩ := stringFind_eq_some h
      refine ⟨le_trans (Nat.le_succ _) h1, h2, h3, fun j hj1 hj2 => ?_⟩
      rcases Nat.eq_or_lt_of_le hj1 with rfl | hj1
      · exact Bool.not_eq_true _ ▸ hb
      · exact h4 j hj1 hj2
  · rw [stringFind, dif_neg hp] at h
    exact absurd h (by simp)
termination_by hay.length + 1 - pos

theorem stringFind_eq_none {hay needle : List Char} {pos : Nat}
    (h : stringFind hay needle pos = none) :
    ∀ j, pos ≤ j → j ≤ hay.length → beginsWith needle (hay.drop j) = false := by
  by_cases hp : pos ≤ hay.length
  · rw [stringFind, dif_pos hp] at h
    by_cases hb : beginsWith needle (hay.drop pos) = true
    · rw [if_pos hb] at h
      exact absurd h (by simp)
    · rw [if_neg hb] at h
      intro j hj1 hj2
      rcases Nat.eq_or_lt_of_le hj1 with rfl | hj1
      · exact Bool.not_eq_true _ ▸ hb
      · exact stringFind_eq_none h j hj1 hj2
  · intro j hj1 hj2
    exact absurd (le_trans hj1 hj2) hp
termination_by hay.length + 1 - pos

/-- Embeds the loop body of `Utils::searchReplace` from
src/clib/common/utils/string.cpp: find the next occurrence of `search` at or
after `pos`, splice in `replace`, and resume just past the inserted
replacement.  The nonemptiness of `search` is exactly what makes the C++
loop terminate. -/
def ClibUtils.searchReplaceLoop (search replace : List Char)
    (hs : search ≠ []) (cur : List Char) (pos : Nat) : List Char :=
  match hfind : stringFind cur search pos with
  | none => cur
  | some i =>
      ClibUtils.searchReplaceLoop search replace hs
        (cur.take i ++ replace ++ cur.drop (i + search.length))
        (i + replace.length)
termination_by cur.length - pos
decreasing_by
  obtain ⟨h1, h2, h3, _⟩ := stringFind_eq_some hfind
  have h5 : search.length ≤ cur.length - i := by
    have := beginsWith_length_le h3
    simpa using this
  have h6 : 1 ≤ search.length := List.length_pos.mpr hs
  simp only [List.length_append, List.length_take, List.length_drop]
  omega

/-- Embeds `Utils::searchReplace` from src/clib/common/utils/string.cpp. -/
def ClibUtils.searchReplace (str search replace : List Char)
    (hs : search ≠ []) : List Char :=
  ClibUtils.searchReplaceLoop search replace hs str 0

/-- Embeds the loop body of `Utils::searchReplace` from
src/solvers/common/utils/string.cpp (the second, textually identical copy). -/
def SolverUtils.searchReplaceLoop (search replace : List Char)
    (hs : search ≠ []) (cur : List Char) (pos : Nat) : List Char :=
  match hfind : stringFind cur search pos with
  | none => cur
  | some i =>
      SolverUtils.searchReplaceLoop search replace hs
        (cur.take i ++ replace ++ cur.drop (i + search.length))
        (i + replace.length)
termination_by cur.length - pos
decreasing_by
  obtain ⟨h1, h2, h3, _⟩ := stringFind_eq_some hfind
  have h5 : search.length ≤ cur.length - i := by
    have := beginsWith_length_le h3
    simpa using this
  have h6 : 1 ≤ search.length := List.length_pos.mpr hs
  simp only [List.length_append, List.length_take, List.length_drop]
  omega

/-- Embeds `Utils::searchReplace` from src/solvers/common/utils/string.cpp. -/
def SolverUtils.searchReplace (str search replace : List Char)
    (hs : search ≠ []) : List Char :=
  SolverUtils.searchReplaceLoop search replace hs str 0

/-- Specification-level replacement: scan left to right; at the first
position where `search` occurs, emit `replace` and continue scanning
immediately after the consumed occurrence, so inserted text is never
rescanned. -/
def specReplaceAll (search replace : List Char) (hs : search ≠ []) :
    List Char → List Char
  | [] => []
  | c :: rest =>
    if beginsWith search (c :: rest) then
      replace ++ specReplaceAll search replace hs (List.drop search.length (c :: rest))
    else
      c :: specReplaceAll search replace hs rest
termination_by l => l.length
decreasing_by
  · have h6 : 1 ≤ search.length := List.length_pos.mpr hs
    simp only [List.length_drop, List.length_cons]
    omega
  · simp

theorem beginsWith_nil_of_ne {search : List Char} (hs : search ≠ []) :
    beginsWith search [] = false := by
  cases search with
  | nil => exact absurd rfl hs
  | cons a as => rfl

theorem specReplaceAll_of_no_occurrence (search replace : List Char)
    (hs : search ≠ []) (u : List Char)
    (h : ∀ k, beginsWith search (u.drop k) = false) :
    specReplaceAll search replace hs u = u := by
  induction u with
  | nil => rw [specReplaceAll]
  | cons c rest ih =>
    rw [specReplaceAll]
    have h0 : beginsWith search (c :: rest) = false := by
      have := h 0
      simpa using this
    rw [if_neg (by simp [h0])]
    have : specReplaceAll search replace hs rest = rest :=
      ih (fun k => by have := h (k + 1); simpa using this)
    rw [this]

theorem specReplaceAll_of_first_occurrence (search replace : List Char)
    (hs : search ≠ []) :
    ∀ (k : Nat) (u : List Char),
      (∀ j, j < k → beginsWith search (u.drop j) = false) →
      beginsWith search (u.drop k) = true →
      specReplaceAll search replace hs u
        = u.take k ++ replace
            ++ specReplaceAll search replace hs (u.drop (k + search.length)) := by
  intro k
  induction k with
  | zero =>
    intro u hmin hmatch
    simp only [List.drop_zero] at hmatch
    cases u with
    | nil => exact absurd hmatch (by simp [beginsWith_nil_of_ne hs])
    | cons c rest =>
      rw [specReplaceAll, if_pos (by simp [hmatch])]
      simp [Nat.zero_add]
  | succ k ih =>
    intro u hmin hmatch
    cases u with
    | nil =>
      rw [List.drop_nil] at hmatch
      exact absurd hmatch (by simp [beginsWith_nil_of_ne hs])
    | cons c rest =>
      have h0 : beginsWith search (c :: rest) = false := by
        have := hmin 0 (Nat.succ_pos k)
        simpa using this
      rw [specReplaceAll, if_neg (by simp [h0])]
      have hrest := ih rest
        (fun j hj => by have := hmin (j + 1) (Nat.succ_lt_succ hj); simpa using this)
        (by simpa using hmatch)
      rw [hrest]
      simp [List.take_cons, Nat.succ_add]

theorem searchReplaceLoop_eq_spec (search replace : List Char)
    (hs : search ≠ []) :
    ∀ (n : Nat) (cur : List Char) (pos : Nat),
      cur.length - pos ≤ n → pos ≤ cur.length →
      ClibUtils.searchReplaceLoop search replace hs cur pos
        = cur.take pos ++ specReplaceAll search replace hs (cur.drop pos) := by
  intro n
  induction n using Nat.strong_induction_on with
  | _ n ih =>
    intro cur pos hm hp
    rw [ClibUtils.searchReplaceLoop.eq_def]
    split
    next hfind =>
      have hall := stringFind_eq_none hfind
      have hno : ∀ k, beginsWith search ((cur.drop pos).drop k) = false := by
        intro k
        rw [List.drop_drop]
        by_cases hk : pos + k ≤ cur.length
        · exact hall (pos + k) (Nat.le_add_right _ _) hk
        · rw [List.drop_eq_nil_of_le (by omega)]
          exact beginsWith_nil_of_ne hs
      rw [specReplaceAll_of_no_occurrence search replace hs _ hno,
        List.take_append_drop]
    next i hfind =>
      obtain ⟨h1, h2, h3, h4⟩ := stringFind_eq_some hfind
      have hsl : 1 ≤ search.length := List.length_pos.mpr hs
      have hfit : search.length ≤ cur.length - i := by
        have := beginsWith_length_le h3
        simpa using this
      have htklen : (cur.take i).length = i := by
        simp [List.length_take]
        omega
      have hlen : (cur.take i ++ replace ++ cur.drop (i + search.length)).length
          = i + replace.length + (cur.length - (i + search.length)) := by
        simp [List.length_append, htklen]
        omega
      have hmlt : (cur.take i ++ replace ++ cur.drop (i + search.length)).length
          - (i + replace.length) < n := by
        rw [hlen]
        omega
      have hih := ih _ hmlt (cur.take i ++ replace ++ cur.drop (i + search.length))
        (i + replace.length) (le_refl _) (by rw [hlen]; omega)
      rw [hih]
      have htake : (cur.take i ++ replace ++ cur.drop (i + search.length)).take
          (i + replace.length) = cur.take i ++ replace := by
        exact List.take_left' (by simp [List.length_append, htklen])
      have hdrop : (cur.take i ++ replace ++ cur.drop (i + search.length)).drop
          (i + replace.length) = cur.drop (i + search.length) := by
        exact List.drop_left' (by simp [List.length_append, htklen])
      rw [htake, hdrop]
      have hspec := specReplaceAll_of_first_occurrence search replace hs
        (i - pos) (cur.drop pos)
        (fun j hj => by
          rw [List.drop_drop]
          exact h4 (pos + j) (Nat.le_add_right _ _) (by omega))
        (by
          rw [List.drop_drop]
          have : pos + (i - pos) = i := by omega
          rw [this]
          exact h3)
      rw [hspec]
      have hseg : cur.take pos ++ (cur.drop pos).take (i - pos) = cur.take i := by
        conv_rhs => rw [show i = pos + (i - pos) by omega]
        rw [List.take_add]
      have hrest : (cur.drop pos).drop (i - pos + search.length)
          = cur.drop (i + search.length) := by
        rw [List.drop_drop]
        congr 1
        omega
      rw [hrest, ← List.append_assoc, ← List.append_assoc, hseg]

theorem solverSearchReplaceLoop_eq_spec (search replace : List Char)
    (hs : search ≠ []) :
    ∀ (n : Nat) (cur : List Char) (pos : Nat),
      cur.length - pos ≤ n → pos ≤ cur.length →
      SolverUtils.searchReplaceLoop search replace hs cur pos
        = cur.take pos ++ specReplaceAll search replace hs (cur.drop pos) := by
  intro n
  induction n using Nat.strong_induction_on with
  | _ n ih =>
    intro cur pos hm hp
    rw [SolverUtils.searchReplaceLoop.eq_def]
    split
    next hfind =>
      have hall := stringFind_eq_none hfind
      have hno : ∀ k, beginsWith search ((cur.drop pos).drop k) = false := by
        intro k
        rw [List.drop_drop]
        by_cases hk : pos + k ≤ cur.length
        · exact hall (pos + k) (Nat.le_add_right _ _) hk
        · rw [List.drop_eq_nil_of_le (by omega)]
          exact beginsWith_nil_of_ne hs
      rw [specReplaceAll_of_no_occurrence search replace hs _ hno,
        List.take_append_drop]
    next i hfind =>
      obtain ⟨h1, h2, h3, h4⟩ := stringFind_eq_some hfind
      have hsl : 1 ≤ search.length := List.length_pos.mpr hs
      have hfit : search.length ≤ cur.length - i := by
        have := beginsWith_length_le h3
        simpa using this
      have htklen : (cur.take i).length = i := by
        simp [List.length_take]
        omega
      have hlen : (cur.take i ++ replace ++ cur.drop (i + search.length)).length
          = i + replace.length + (cur.length - (i + search.length)) := by
        simp [List.length_append, htklen]
        omega
      have hmlt : (cur.take i ++ replace ++ cur.drop (i + search.length)).length
          - (i + replace.length) < n := by
        rw [hlen]
        omega
      have hih := ih _ hmlt (cur.take i ++ replace ++ cur.drop (i + search.length))
        (i + replace.length) (le_refl _) (by rw [hlen]; omega)
      rw [hih]
      have htake : (cur.take i ++ replace ++ cur.drop (i + search.length)).take
          (i + replace.length) = cur.take i ++ replace := by
        exact List.take_left' (by simp [List.length_append, htklen])
      have hdrop : (cur.take i ++ replace ++ cur.drop (i + search.length)).drop
          (i + replace.length) = cur.drop (i + search.length) := by
        exact List.drop_left' (by simp [List.length_append, htklen])
      rw [htake, hdrop]
      have hspec := specReplaceAll_of_first_occurrence search replace hs
        (i - pos) (cur.drop pos)
        (fun j hj => by
          rw [List.drop_drop]
          exact h4 (pos + j) (Nat.le_add_right _ _) (by omega))
        (by
          rw [List.drop_drop]
          have : pos + (i - pos) = i := by omega
          rw [this]
          exact h3)
      rw [hspec]
      have hseg : cur.take pos ++ (cur.drop pos).take (i - pos) = cur.take i := by
        conv_rhs => rw [show i = pos + (i - pos) by omega]
        rw [List.take_add]
      have hrest : (cur.drop pos).drop (i - pos + search.length)
          = cur.drop (i + search.length) := by
        rw [List.drop_drop]
        congr 1
        omega
      rw [hrest, ← List.append_assoc, ← List.append_assoc, hseg]

/-- C9: for every input string, nonempty search string and replacement
string, `Utils::searchReplace` (src/clib/common/utils/string.cpp)
terminates — it is realized here as a total function on exactly that
domain — and returns the string in which occurrences of the search string
are replaced left to right by the replacement, with the scan resuming
immediately after each inserted replacement, so text introduced by a
replacement is never itself rescanned or replaced (`specReplaceAll` is
that specification, by structural recursion). -/
theorem c9_searchReplace_left_to_right (str search replace : List Char)
    (hs : search ≠ []) :
    ClibUtils.searchReplace str search replace hs
      = specReplaceAll search replace hs str := by
  have h := searchReplaceLoop_eq_spec search replace hs str.length str 0
    (by omega) (by omega)
  simpa [ClibUtils.searchReplace] using h

/-- Witness for C9 at a concrete input; the scan skips the occurrence of
"ab" created by replacing "ab" with "b" inside "aab". -/
theorem c9_searchReplace_left_to_right_witness :
    (['a', 'b'] : List Char) ≠ [] ∧
      ClibUtils.searchReplace ['a', 'a', 'b'] ['a', 'b'] ['b'] (by decide)
        = specReplaceAll ['a', 'b'] ['b'] (by decide) ['a', 'a', 'b'] ∧
      specReplaceAll ['a', 'b'] ['b'] (by decide) ['a', 'a', 'b'] = ['a', 'b'] :=
  ⟨by decide,
   c9_searchReplace_left_to_right ['a', 'a', 'b'] ['a', 'b'] ['b'] (by decide),
   by simp [specReplaceAll, beginsWith]⟩

/-- C10: the two copies of the string utilities agree where they overlap:
`isWhitespace` from src/clib and from src/solvers agree on every character,
and the two `searchReplace` implementations agree on all argument strings
(on the domain where the shared loop terminates, i.e. nonempty search
strings). -/
theorem c10_utils_copies_agree :
    (∀ c : Char, ClibUtils.isWhitespace c = SolverUtils.isWhitespace c) ∧
      ∀ (str search replace : List Char) (hs : search ≠ []),
        ClibUtils.searchReplace str search replace hs
          = SolverUtils.searchReplace str search replace hs := by
  constructor
  · intro c
    rfl
  · intro str search replace hs
    have h1 := searchReplaceLoop_eq_spec search replace hs str.length str 0
      (by omega) (by omega)
    have h2 := solverSearchReplaceLoop_eq_spec search replace hs str.length str 0
      (by omega) (by omega)
    simp only [ClibUtils.searchReplace, SolverUtils.searchReplace, h1, h2]

/-- Witness for C10 at concrete inputs. -/
theorem c10_utils_copies_agree_witness :
    ClibUtils.isWhitespace ' ' = SolverUtils.isWhitespace ' ' ∧
      ClibUtils.searchReplace ['a', 'b'] ['b'] ['c'] (by decide)
        = SolverUtils.searchReplace ['a', 'b'] ['b'] ['c'] (by decide) :=
  ⟨c10_utils_copies_agree.1 ' ',
   c10_utils_copies_agree.2 ['a', 'b'] ['b'] ['c'] (by decide)⟩

theorem isNumericChar_cases {c : Char} (h : ClibUtils.isNumericChar c = true) :
    c = '0' ∨ c = '1' ∨ c = '2' ∨ c = '3' ∨ c = '4' ∨ c = '5' ∨ c = '6' ∨
      c = '7' ∨ c = '8' ∨ c = '9' := by
  unfold ClibUtils.isNumericChar at h
  simp only [Bool.or_eq_true, decide_eq_true_eq] at h
  tauto

theorem isNumericChar_iff (c : Char) :
    ClibUtils.isNumericChar c = true ↔ ('0' ≤ c ∧ c ≤ '9') := by
  constructor
  · intro h
    rcases isNumericChar_cases h with
      rfl | rfl | rfl | rfl | rfl | rfl | rfl | rfl | rfl | rfl <;>
      exact ⟨by decide, by decide⟩
  · rintro ⟨h1, h2⟩
    rw [Char.le_def] at h1 h2
    have hb1 : 48 ≤ c.toNat := h1
    have hb2 : c.toNat ≤ 57 := h2
    have hc : Char.ofNat c.toNat = c := Char.ofNat_toNat c
    interval_cases h : c.toNat <;> rw [← hc] <;> decide

theorem isNumericChar_not_space {c : Char}
    (h : ClibUtils.isNumericChar c = true) : cIsSpace c = false := by
  rcases isNumericChar_cases h with
    rfl | rfl | rfl | rfl | rfl | rfl | rfl | rfl | rfl | rfl <;> decide

theorem isNumericChar_ne_sign {c : Char}
    (h : ClibUtils.isNumericChar c = true) : c ≠ '-' ∧ c ≠ '+' := by
  rcases isNumericChar_cases h with
    rfl | rfl | rfl | rfl | rfl | rfl | rfl | rfl | rfl | rfl <;>
    exact ⟨by decide, by decide⟩

/-- The specification predicate of claim C8: an optional single leading
minus sign followed by one or more decimal digit characters. -/
def numericSpec (s : List Char) : Prop :=
  (s ≠ [] ∧ ∀ c ∈ s, '0' ≤ c ∧ c ≤ '9') ∨
    (∃ t, s = '-' :: t ∧ t ≠ [] ∧ ∀ c ∈ t, '0' ≤ c ∧ c ≤ '9')

/-- The signed decimal integer denoted by a numeric string. -/
def denotedInt (s : List Char) : Int :=
  match s with
  | [] => 0
  | c :: t => if c = '-' then -(digitsToNat t : Int) else (digitsToNat (c :: t) : Int)

theorem isNumeric_iff_numericSpec (s : List Char) :
    ClibUtils.isNumeric s = true ↔ numericSpec s := by
  have hnd : ¬ ('0' ≤ '-' ∧ '-' ≤ '9') := by decide
  unfold numericSpec
  cases s with
  | nil =>
    constructor
    · intro h
      exact absurd h (by decide)
    · rintro (⟨hne, -⟩ | ⟨t, ht, -, -⟩)
      · exact absurd rfl hne
      · exact absurd ht (by simp)
  | cons c rest =>
    by_cases hc : c = '-'
    · subst hc
      cases rest with
      | nil =>
        constructor
        · intro h
          exact absurd h (by decide)
        · rintro (⟨-, hall⟩ | ⟨t, ht, hne, -⟩)
          · exact absurd (hall '-' (by simp)) hnd
          · rw [List.cons.injEq] at ht
            obtain ⟨-, rfl⟩ := ht
            exact absurd rfl hne
      | cons d ds =>
        have hred : ClibUtils.isNumeric ('-' :: d :: ds)
            = (ClibUtils.isNumericChar d && ds.all ClibUtils.isNumericChar) := rfl
        rw [hred, Bool.and_eq_true, List.all_eq_true]
        constructor
        · rintro ⟨hd, hds⟩
          right
          refine ⟨d :: ds, rfl, by simp, ?_⟩
          intro x hx
          rcases List.mem_cons.mp hx with rfl | hx
          · exact (isNumericChar_iff x).mp hd
          · exact (isNumericChar_iff x).mp (hds x hx)
        · rintro (⟨-, hall⟩ | ⟨t, ht, -, hall⟩)
          · exact absurd (hall '-' (by simp)) hnd
          · rw [List.cons.injEq] at ht
            obtain ⟨-, rfl⟩ := ht
            refine ⟨(isNumericChar_iff d).mpr (hall d (by simp)), ?_⟩
            intro x hx
            exact (isNumericChar_iff x).mpr (hall x (by simp [hx]))
    · have hred : ClibUtils.isNumeric (c :: rest)
          = (ClibUtils.isNumericChar c && rest.all ClibUtils.isNumericChar) := by
        rw [ClibUtils.isNumeric.eq_def]
        simp only [if_neg hc]
      rw [hred, Bool.and_eq_true, List.all_eq_true]
      constructor
      · rintro ⟨hd, hds⟩
        left
        refine ⟨by simp, ?_⟩
        intro x hx
        rcases List.mem_cons.mp hx with rfl | hx
        · exact (isNumericChar_iff x).mp hd
        · exact (isNumericChar_iff x).mp (hds x hx)
      · rintro (⟨-, hall⟩ | ⟨t, ht, -, -⟩)
        · refine ⟨(isNumericChar_iff c).mpr (hall c (by simp)), ?_⟩
          intro x hx
          exact (isNumericChar_iff x).mpr (hall x (by simp [hx]))
        · rw [List.cons.injEq] at ht
          exact absurd ht.1 hc

theorem stoi_of_isNumeric {s : List Char} (h : ClibUtils.isNumeric s = true) :
    stoi s =
      if denotedInt s < -2147483648 ∨ 2147483647 < denotedInt s
      then Except.error "out of range"
      else Except.ok (denotedInt s) := by
  cases s with
  | nil => exact absurd h (by decide)
  | cons c rest =>
    by_cases hc : c = '-'
    · subst hc
      cases rest with
      | nil => exact absurd h (by decide)
      | cons d ds =>
        have h2 : (ClibUtils.isNumericChar d && ds.all ClibUtils.isNumericChar)
            = true := h
        rw [Bool.and_eq_true, List.all_eq_true] at h2
        obtain ⟨hd, hds⟩ := h2
        have hdrop : List.dropWhile cIsSpace ('-' :: d :: ds) = '-' :: d :: ds := by
          rw [List.dropWhile_cons, if_neg (by decide)]
        have htake : List.takeWhile ClibUtils.isNumericChar (d :: ds) = d :: ds := by
          refine List.takeWhile_eq_self_iff.mpr ?_
          intro x hx
          rcases List.mem_cons.mp hx with rfl | hx
          · exact hd
          · exact hds x hx
        simp [stoi, hdrop, htake, denotedInt, hd]
    · cases rest with
      | nil =>
        have hred : ClibUtils.isNumeric [c]
            = (ClibUtils.isNumericChar c && List.all [] ClibUtils.isNumericChar) := by
          rw [ClibUtils.isNumeric.eq_def]
          simp only [if_neg hc]
        rw [hred, Bool.and_eq_true] at h
        obtain ⟨hd, -⟩ := h
        have hdrop : List.dropWhile cIsSpace [c] = [c] := by
          rw [List.dropWhile_cons, isNumericChar_not_space hd]
          simp
        have htake : List.takeWhile ClibUtils.isNumericChar [c] = [c] := by
          refine List.takeWhile_eq_self_iff.mpr ?_
          intro x hx
          rcases List.mem_cons.mp hx with rfl | hx
          · exact hd
          · exact absurd hx (by simp)
        obtain ⟨hne1, hne2⟩ := isNumericChar_ne_sign hd
        simp only [stoi, hdrop, if_neg hne1, if_neg hne2, htake, denotedInt,
          if_neg hc]
        norm_num
      | cons d ds =>
        have hred : ClibUtils.isNumeric (c :: d :: ds)
            = (ClibUtils.isNumericChar c
                && List.all (d :: ds) ClibUtils.isNumericChar) := by
          rw [ClibUtils.isNumeric.eq_def]
          simp only [if_neg hc]
        rw [hred, Bool.and_eq_true, List.all_eq_true] at h
        obtain ⟨hd, hds⟩ := h
        have hdrop : List.dropWhile cIsSpace (c :: d :: ds) = c :: d :: ds := by
          rw [List.dropWhile_cons, isNumericChar_not_space hd]
          simp
        have htake : List.takeWhile ClibUtils.isNumericChar (c :: d :: ds)
            = c :: d :: ds := by
          refine List.takeWhile_eq_self_iff.mpr ?_
          intro x hx
          rcases List.mem_cons.mp hx with rfl | hx
          · exact hd
          · exact hds x hx
        obtain ⟨hne1, hne2⟩ := isNumericChar_ne_sign hd
        simp only [stoi, hdrop, if_neg hne1, if_neg hne2, htake, denotedInt,
          if_neg hc]
        norm_num

/-- Counterexample to C8 as stated: the string "2147483648" is accepted by
`Utils::isNumeric`, yet `Utils::toInt` raises an error on it (the denoted
value does not fit in `int`), so `toInt` does not raise an error exactly
when `isNumeric` is false. -/
theorem c8_counterexample_overflow :
    ClibUtils.isNumeric ['2', '1', '4', '7', '4', '8', '3', '6', '4', '8'] = true ∧
      ClibUtils.toInt ['2', '1', '4', '7', '4', '8', '3', '6', '4', '8']
        = Except.error "out of range" :=
  ⟨rfl, rfl⟩

/-- C8 (amended): `Utils::isNumeric(str)` returns true iff `str` is an
optional single leading minus sign followed by one or more decimal digit
characters (so false for the empty string and for "-" alone), and
`Utils::toInt(str)` raises an error exactly when `isNumeric(str)` is false
or the denoted signed decimal integer lies outside the range of `int`;
otherwise it returns that integer. -/
theorem c8_isNumeric_toInt (s : List Char) :
    (ClibUtils.isNumeric s = true ↔ numericSpec s) ∧
      ClibUtils.toInt s =
        (if ClibUtils.isNumeric s then
          (if denotedInt s < -2147483648 ∨ 2147483647 < denotedInt s then
            Except.error "out of range"
          else Except.ok (denotedInt s))
        else Except.error "Not a number") := by
  refine ⟨isNumeric_iff_numericSpec s, ?_⟩
  unfold ClibUtils.toInt
  by_cases h : ClibUtils.isNumeric s = true
  · rw [if_pos h, if_pos h, stoi_of_isNumeric h]
  · rw [if_neg (by simpa using h), if_neg (by simpa using h)]

/-! ## Expression AST (src/solvers/common/model/constraints.cpp) -/

/-- Modelled from the spec: `Model::ID` from
src/solvers/common/model/types.h (not part of src/), an opaque integer-like
value identifier with value equality only. -/
abbrev ModelID := Nat

/-- Embeds `AnIntegerExpr` (stores the `int i_` supplied at construction). -/
structure AnIntegerExpr where
  i_ : Int
deriving DecidableEq, Repr

/-- Embeds `AnIntegerExpr::getValue`. -/
def AnIntegerExpr.getValue (e : AnIntegerExpr) : Int := e.i_

/-- Embeds `ANodeIdExpr` (stores the `Id id_` supplied at construction). -/
structure ANodeIdExpr where
  id_ : ModelID
deriving DecidableEq, Repr

/-- Embeds `ANodeIdExpr::getId`. -/
def ANodeIdExpr.getId (e : ANodeIdExpr) : ModelID := e.id_

/-- Embeds `AnInstanceIdExpr`. -/
structure AnInstanceIdExpr where
  id_ : ModelID
deriving DecidableEq, Repr

/-- Embeds `AnInstanceIdExpr::getId`. -/
def AnInstanceIdExpr.getId (e : AnInstanceIdExpr) : ModelID := e.id_

/-- Embeds `AnInstructionIdExpr`. -/
structure AnInstructionIdExpr where
  id_ : ModelID
deriving DecidableEq, Repr

/-- Embeds `AnInstructionIdExpr::getId`. -/
def AnInstructionIdExpr.getId (e : AnInstructionIdExpr) : ModelID := e.id_

/-- Embeds `APatternIdExpr`. -/
structure APatternIdExpr where
  id_ : ModelID
deriving DecidableEq, Repr

/-- Embeds `APatternIdExpr::getId`. -/
def APatternIdExpr.getId (e : APatternIdExpr) : ModelID := e.id_

/-- Embeds `ALabelIdExpr`. -/
structure ALabelIdExpr where
  id_ : ModelID
deriving DecidableEq, Repr

/-- Embeds `ALabelIdExpr::getId`. -/
def ALabelIdExpr.getId (e : ALabelIdExpr) : ModelID := e.id_

/-- Embeds `ARegisterIdExpr`. -/
structure ARegisterIdExpr where
  id_ : ModelID
deriving DecidableEq, Repr

/-- Embeds `ARegisterIdExpr::getId`. -/
def ARegisterIdExpr.getId (e : ARegisterIdExpr) : ModelID := e.id_

/-- The node-id expression family (`NodeIdExpr` and its subclasses). -/
inductive NodeIdExpr where
  | aNodeId (e : ANodeIdExpr)
deriving DecidableEq, Repr

/-- The instance-id expression family (`InstanceIdExpr` and subclasses):
a literal, the contextual "this instance" node, and the two decision
derivations from node ids. -/
inductive InstanceIdExpr where
  | anInstanceId (e : AnInstanceIdExpr)
  | thisInstanceId
  | covererOfActionNode (e : NodeIdExpr)
  | definerOfEntityNode (e : NodeIdExpr)
deriving DecidableEq, Repr

/-- The pattern-id expression family (`PatternIdExpr` and subclasses). -/
inductive PatternIdExpr where
  | aPatternId (e : APatternIdExpr)
  | patternIdOfInstance (e : InstanceIdExpr)
deriving DecidableEq, Repr

/-- The instruction-id expression family (`InstructionIdExpr`,
subclasses). -/
inductive InstructionIdExpr where
  | anInstructionId (e : AnInstructionIdExpr)
  | instructionIdOfPattern (e : PatternIdExpr)
deriving DecidableEq, Repr

/-- The label-id expression family (`LabelIdExpr` and subclasses). -/
inductive LabelIdExpr where
  | aLabelId (e : ALabelIdExpr)
  | labelIdAllocatedToInstance (e : InstanceIdExpr)
  | labelIdOfLabelNode (e : NodeIdExpr)
deriving DecidableEq, Repr

/-- The register-id expression family (`RegisterIdExpr` and subclasses). -/
inductive RegisterIdExpr where
  | aRegisterId (e : ARegisterIdExpr)
  | registerIdAllocatedToDataNode (e : NodeIdExpr)
deriving DecidableEq, Repr

/-- The numeric expression family (`NumExpr` and its subclasses):
arithmetic, the integer literal, and the six id-to-numeric casts. -/
inductive NumExpr where
  | plusExpr (lhs rhs : NumExpr)
  | minusExpr (lhs rhs : NumExpr)
  | anIntegerExpr (e : AnIntegerExpr)
  | nodeIdToNumExpr (e : NodeIdExpr)
  | instanceIdToNumExpr (e : InstanceIdExpr)
  | instructionIdToNumExpr (e : InstructionIdExpr)
  | patternIdToNumExpr (e : PatternIdExpr)
  | labelIdToNumExpr (e : LabelIdExpr)
  | registerIdToNumExpr (e : RegisterIdExpr)
deriving DecidableEq, Repr

/-- The boolean expression family (`BoolExpr` and its subclasses):
six numeric comparisons, four binary connectives, and negation. -/
inductive BoolExpr where
  | eqExpr (lhs rhs : NumExpr)
  | neqExpr (lhs rhs : NumExpr)
  | gtExpr (lhs rhs : NumExpr)
  | geExpr (lhs rhs : NumExpr)
  | ltExpr (lhs rhs : NumExpr)
  | leExpr (lhs rhs : NumExpr)
  | eqvExpr (lhs rhs : BoolExpr)
  | impExpr (lhs rhs : BoolExpr)
  | andExpr (lhs rhs : BoolExpr)
  | orExpr (lhs rhs : BoolExpr)
  | notExpr (e : BoolExpr)
deriving DecidableEq, Repr

/-- Embeds `Constraint` (owns exactly one boolean-root expression). -/
structure Constraint where
  expr_ : BoolExpr
deriving DecidableEq, Repr

/-- Embeds `Constraint::Constraint(BoolExpr* expr)` from
src/solvers/common/model/constraints.cpp: throws "expr cannot be NULL"
when the root expression pointer is null. -/
def Constraint.make (expr : Option BoolExpr) : Except String Constraint :=
  match expr with
  | none => Except.error "expr cannot be NULL"
  | some e => Except.ok ⟨e⟩

/-- Embeds `Constraint::getExpr`. -/
def Constraint.getExpr (c : Constraint) : BoolExpr := c.expr_

/-- Modelled from the spec: the `BinaryExpr` base-class constructor in
src/solvers/common/model/constraints.h (the header is not part of src/),
which validates that both operand subtrees are present and fails
construction with a construction error otherwise. -/
def mkBinaryExpr {α β γ : Type} (node : α → β → γ)
    (lhs : Option α) (rhs : Option β) : Except String γ :=
  match lhs, rhs with
  | some l, some r => Except.ok (node l r)
  | _, _ => Except.error "operand cannot be NULL"

/-- Modelled from the spec: the `UnaryExpr` base-class constructor in
src/solvers/common/model/constraints.h (the header is not part of src/),
which validates that the operand subtree is present and fails construction
with a construction error otherwise. -/
def mkUnaryExpr {α γ : Type} (node : α → γ) (e : Option α) : Except String γ :=
  match e with
  | some x => Except.ok (node x)
  | none => Except.error "operand cannot be NULL"

/-- Embeds `EqExpr::EqExpr(NumExpr* lhs, NumExpr* rhs)`. -/
def EqExpr.make : Option NumExpr → Option NumExpr → Except String BoolExpr :=
  mkBinaryExpr BoolExpr.eqExpr

/-- Embeds `NeqExpr::NeqExpr`. -/
def NeqExpr.make : Option NumExpr → Option NumExpr → Except String BoolExpr :=
  mkBinaryExpr BoolExpr.neqExpr

/-- Embeds `GTExpr::GTExpr`. -/
def GTExpr.make : Option NumExpr → Option NumExpr → Except String BoolExpr :=
  mkBinaryExpr BoolExpr.gtExpr

/-- Embeds `GEExpr::GEExpr`. -/
def GEExpr.make : Option NumExpr → Option NumExpr → Except String BoolExpr :=
  mkBinaryExpr BoolExpr.geExpr

/-- Embeds `LTExpr::LTExpr`. -/
def LTExpr.make : Option NumExpr → Option NumExpr → Except String BoolExpr :=
  mkBinaryExpr BoolExpr.ltExpr

/-- Embeds `LEExpr::LEExpr`. -/
def LEExpr.make : Option NumExpr → Option NumExpr → Except String BoolExpr :=
  mkBinaryExpr BoolExpr.leExpr

/-- Embeds `EqvExpr::EqvExpr`. -/
def EqvExpr.make : Option BoolExpr → Option BoolExpr → Except String BoolExpr :=
  mkBinaryExpr BoolExpr.eqvExpr

/-- Embeds `ImpExpr::ImpExpr`. -/
def ImpExpr.make : Option BoolExpr → Option BoolExpr → Except String BoolExpr :=
  mkBinaryExpr BoolExpr.impExpr

/-- Embeds `AndExpr::AndExpr`. -/
def AndExpr.make : Option BoolExpr → Option BoolExpr → Except String BoolExpr :=
  mkBinaryExpr BoolExpr.andExpr

/-- Embeds `OrExpr::OrExpr`. -/
def OrExpr.make : Option BoolExpr → Option BoolExpr → Except String BoolExpr :=
  mkBinaryExpr BoolExpr.orExpr

/-- Embeds `PlusExpr::PlusExpr`. -/
def PlusExpr.make : Option NumExpr → Option NumExpr → Except String NumExpr :=
  mkBinaryExpr NumExpr.plusExpr

/-- Embeds `MinusExpr::MinusExpr`. -/
def MinusExpr.make : Option NumExpr → Option NumExpr → Except String NumExpr :=
  mkBinaryExpr NumExpr.minusExpr

/-- Embeds `NotExpr::NotExpr(BoolExpr* expr)`. -/
def NotExpr.make : Option BoolExpr → Except String BoolExpr :=
  mkUnaryExpr BoolExpr.notExpr

/-- Embeds `NodeIdToNumExpr::NodeIdToNumExpr`. -/
def NodeIdToNumExpr.make : Option NodeIdExpr → Except String NumExpr :=
  mkUnaryExpr NumExpr.nodeIdToNumExpr

/-- Embeds `InstanceIdToNumExpr::InstanceIdToNumExpr`. -/
def InstanceIdToNumExpr.make : Option InstanceIdExpr → Except String NumExpr :=
  mkUnaryExpr NumExpr.instanceIdToNumExpr

/-- Embeds `InstructionIdToNumExpr::InstructionIdToNumExpr`. -/
def InstructionIdToNumExpr.make :
    Option InstructionIdExpr → Except String NumExpr :=
  mkUnaryExpr NumExpr.instructionIdToNumExpr

/-- Embeds `PatternIdToNumExpr::PatternIdToNumExpr`. -/
def PatternIdToNumExpr.make : Option PatternIdExpr → Except String NumExpr :=
  mkUnaryExpr NumExpr.patternIdToNumExpr

/-- Embeds `LabelIdToNumExpr::LabelIdToNumExpr`. -/
def LabelIdToNumExpr.make : Option LabelIdExpr → Except String NumExpr :=
  mkUnaryExpr NumExpr.labelIdToNumExpr

/-- Embeds `RegisterIdToNumExpr::RegisterIdToNumExpr`. -/
def RegisterIdToNumExpr.make : Option RegisterIdExpr → Except String NumExpr :=
  mkUnaryExpr NumExpr.registerIdToNumExpr

/-- Embeds `CovererOfActionNodeExpr::CovererOfActionNodeExpr`. -/
def CovererOfActionNodeExpr.make :
    Option NodeIdExpr → Except String InstanceIdExpr :=
  mkUnaryExpr InstanceIdExpr.covererOfActionNode

/-- Embeds `DefinerOfEntityNodeExpr::DefinerOfEntityNodeExpr`. -/
def DefinerOfEntityNodeExpr.make :
    Option NodeIdExpr → Except String InstanceIdExpr :=
  mkUnaryExpr InstanceIdExpr.definerOfEntityNode

/-- Embeds `InstructionIdOfPatternExpr::InstructionIdOfPatternExpr`. -/
def InstructionIdOfPatternExpr.make :
    Option PatternIdExpr → Except String InstructionIdExpr :=
  mkUnaryExpr InstructionIdExpr.instructionIdOfPattern

/-- Embeds `PatternIdOfInstanceExpr::PatternIdOfInstanceExpr`. -/
def PatternIdOfInstanceExpr.make :
    Option InstanceIdExpr → Except String PatternIdExpr :=
  mkUnaryExpr PatternIdExpr.patternIdOfInstance

/-- Embeds `LabelIdAllocatedToInstanceExpr`'s constructor. -/
def LabelIdAllocatedToInstanceExpr.make :
    Option InstanceIdExpr → Except String LabelIdExpr :=
  mkUnaryExpr LabelIdExpr.labelIdAllocatedToInstance

/-- Embeds `LabelIdOfLabelNodeExpr`'s constructor. -/
def LabelIdOfLabelNodeExpr.make :
    Option NodeIdExpr → Except String LabelIdExpr :=
  mkUnaryExpr LabelIdExpr.labelIdOfLabelNode

/-- Embeds `RegisterIdAllocatedToDataNodeExpr`'s constructor. -/
def RegisterIdAllocatedToDataNodeExpr.make :
    Option NodeIdExpr → Except String RegisterIdExpr :=
  mkUnaryExpr RegisterIdExpr.registerIdAllocatedToDataNode

theorem mkBinaryExpr_isOk {α β γ : Type} (f : α → β → γ)
    (a : Option α) (b : Option β) :
    (mkBinaryExpr f a b).isOk = true ↔ (a.isSome = true ∧ b.isSome = true) := by
  cases a <;> cases b <;> simp [mkBinaryExpr, Except.isOk, Except.toBool]

theorem mkUnaryExpr_isOk {α γ : Type} (f : α → γ) (a : Option α) :
    (mkUnaryExpr f a).isOk = true ↔ a.isSome = true := by
  cases a <;> simp [mkUnaryExpr, Except.isOk, Except.toBool]

/-- C3: constructing a `Constraint` with a null boolean-root expression
fails with the construction error "expr cannot be NULL"; constructing it
with a non-null boolean expression succeeds, and `getExpr` returns exactly
that expression. -/
theorem c3_constraint_root_validation :
    Constraint.make none = Except.error "expr cannot be NULL" ∧
      ∀ e : BoolExpr, Constraint.make (some e) = Except.ok ⟨e⟩ ∧
        Except.map Constraint.getExpr (Constraint.make (some e)) = Except.ok e :=
  ⟨rfl, fun e => ⟨rfl, rfl⟩⟩

/-- C2: for every expression node kind with required operands, construction
with a missing (null) operand fails with a construction error and
construction with all operands present succeeds, producing the node built
from exactly the supplied operands; the literal accessors return exactly
the value supplied at construction (an integer literal built with 5
reports 5 via `getValue`, a literal node-id built with 3 reports 3 via
`getId`). -/
theorem c2_construction_validates_operands :
    (∀ a b, (EqExpr.make a b).isOk = true ↔ (a.isSome = true ∧ b.isSome = true)) ∧
    (∀ l r, EqExpr.make (some l) (some r) = Except.ok (BoolExpr.eqExpr l r)) ∧
    (∀ a b, (NeqExpr.make a b).isOk = true ↔ (a.isSome = true ∧ b.isSome = true)) ∧
    (∀ l r, NeqExpr.make (some l) (some r) = Except.ok (BoolExpr.neqExpr l r)) ∧
    (∀ a b, (GTExpr.make a b).isOk = true ↔ (a.isSome = true ∧ b.isSome = true)) ∧
    (∀ l r, GTExpr.make (some l) (some r) = Except.ok (BoolExpr.gtExpr l r)) ∧
    (∀ a b, (GEExpr.make a b).isOk = true ↔ (a.isSome = true ∧ b.isSome = true)) ∧
    (∀ l r, GEExpr.make (some l) (some r) = Except.ok (BoolExpr.geExpr l r)) ∧
    (∀ a b, (LTExpr.make a b).isOk = true ↔ (a.isSome = true ∧ b.isSome = true)) ∧
    (∀ l r, LTExpr.make (some l) (some r) = Except.ok (BoolExpr.ltExpr l r)) ∧
    (∀ a b, (LEExpr.make a b).isOk = true ↔ (a.isSome = true ∧ b.isSome = true)) ∧
    (∀ l r, LEExpr.make (some l) (some r) = Except.ok (BoolExpr.leExpr l r)) ∧
    (∀ a b, (EqvExpr.make a b).isOk = true ↔ (a.isSome = true ∧ b.isSome = true)) ∧
    (∀ l r, EqvExpr.make (some l) (some r) = Except.ok (BoolExpr.eqvExpr l r)) ∧
    (∀ a b, (ImpExpr.make a b).isOk = true ↔ (a.isSome = true ∧ b.isSome = true)) ∧
    (∀ l r, ImpExpr.make (some l) (some r) = Except.ok (BoolExpr.impExpr l r)) ∧
    (∀ a b, (AndExpr.make a b).isOk = true ↔ (a.isSome = true ∧ b.isSome = true)) ∧
    (∀ l r, AndExpr.make (some l) (some r) = Except.ok (BoolExpr.andExpr l r)) ∧
    (∀ a b, (OrExpr.make a b).isOk = true ↔ (a.isSome = true ∧ b.isSome = true)) ∧
    (∀ l r, OrExpr.make (some l) (some r) = Except.ok (BoolExpr.orExpr l r)) ∧
    (∀ a b, (PlusExpr.make a b).isOk = true ↔ (a.isSome = true ∧ b.isSome = true)) ∧
    (∀ l r, PlusExpr.make (some l) (some r) = Except.ok (NumExpr.plusExpr l r)) ∧
    (∀ a b, (MinusExpr.make a b).isOk = true ↔ (a.isSome = true ∧ b.isSome = true)) ∧
    (∀ l r, MinusExpr.make (some l) (some r) = Except.ok (NumExpr.minusExpr l r)) ∧
    (∀ a, (NotExpr.make a).isOk = true ↔ a.isSome = true) ∧
    (∀ x, NotExpr.make (some x) = Except.ok (BoolExpr.notExpr x)) ∧
    (∀ a, (NodeIdToNumExpr.make a).isOk = true ↔ a.isSome = true) ∧
    (∀ x, NodeIdToNumExpr.make (some x) = Except.ok (NumExpr.nodeIdToNumExpr x)) ∧
    (∀ a, (InstanceIdToNumExpr.make a).isOk = true ↔ a.isSome = true) ∧
    (∀ x, InstanceIdToNumExpr.make (some x)
      = Except.ok (NumExpr.instanceIdToNumExpr x)) ∧
    (∀ a, (InstructionIdToNumExpr.make a).isOk = true ↔ a.isSome = true) ∧
    (∀ x, InstructionIdToNumExpr.make (some x)
      = Except.ok (NumExpr.instructionIdToNumExpr x)) ∧
    (∀ a, (PatternIdToNumExpr.make a).isOk = true ↔ a.isSome = true) ∧
    (∀ x, PatternIdToNumExpr.make (some x)
      = Except.ok (NumExpr.patternIdToNumExpr x)) ∧
    (∀ a, (LabelIdToNumExpr.make a).isOk = true ↔ a.isSome = true) ∧
    (∀ x, LabelIdToNumExpr.make (some x)
      = Except.ok (NumExpr.labelIdToNumExpr x)) ∧
    (∀ a, (RegisterIdToNumExpr.make a).isOk = true ↔ a.isSome = true) ∧
    (∀ x, RegisterIdToNumExpr.make (some x)
      = Except.ok (NumExpr.registerIdToNumExpr x)) ∧
    (∀ a, (CovererOfActionNodeExpr.make a).isOk = true ↔ a.isSome = true) ∧
    (∀ x, CovererOfActionNodeExpr.make (some x)
      = Except.ok (InstanceIdExpr.covererOfActionNode x)) ∧
    (∀ a, (DefinerOfEntityNodeExpr.make a).isOk = true ↔ a.isSome = true) ∧
    (∀ x, DefinerOfEntityNodeExpr.make (some x)
      = Except.ok (InstanceIdExpr.definerOfEntityNode x)) ∧
    (∀ a, (InstructionIdOfPatternExpr.make a).isOk = true ↔ a.isSome = true) ∧
    (∀ x, InstructionIdOfPatternExpr.make (some x)
      = Except.ok (InstructionIdExpr.instructionIdOfPattern x)) ∧
    (∀ a, (PatternIdOfInstanceExpr.make a).isOk = true ↔ a.isSome = true) ∧
    (∀ x, PatternIdOfInstanceExpr.make (some x)
      = Except.ok (PatternIdExpr.patternIdOfInstance x)) ∧
    (∀ a, (LabelIdAllocatedToInstanceExpr.make a).isOk = true ↔ a.isSome = true) ∧
    (∀ x, LabelIdAllocatedToInstanceExpr.make (some x)
      = Except.ok (LabelIdExpr.labelIdAllocatedToInstance x)) ∧
    (∀ a, (LabelIdOfLabelNodeExpr.make a).isOk = true ↔ a.isSome = true) ∧
    (∀ x, LabelIdOfLabelNodeExpr.make (some x)
      = Except.ok (LabelIdExpr.labelIdOfLabelNode x)) ∧
    (∀ a, (RegisterIdAllocatedToDataNodeExpr.make a).isOk = true ↔ a.isSome = true) ∧
    (∀ x, RegisterIdAllocatedToDataNodeExpr.make (some x)
      = Except.ok (RegisterIdExpr.registerIdAllocatedToDataNode x)) ∧
    (∀ i : Int, (AnIntegerExpr.mk i).getValue = i) ∧
    ((AnIntegerExpr.mk 5).getValue = 5) ∧
    (∀ n : ModelID, (ANodeIdExpr.mk n).getId = n) ∧
    ((ANodeIdExpr.mk 3).getId = 3) ∧
    (∀ n : ModelID, (AnInstanceIdExpr.mk n).getId = n) ∧
    (∀ n : ModelID, (AnInstructionIdExpr.mk n).getId = n) ∧
    (∀ n : ModelID, (APatternIdExpr.mk n).getId = n) ∧
    (∀ n : ModelID, (ALabelIdExpr.mk n).getId = n) ∧
    (∀ n : ModelID, (ARegisterIdExpr.mk n).getId = n) :=
  ⟨fun a b => mkBinaryExpr_isOk _ a b, fun l r => rfl,
   fun a b => mkBinaryExpr_isOk _ a b, fun l r => rfl,
   fun a b => mkBinaryExpr_isOk _ a b, fun l r => rfl,
   fun a b => mkBinaryExpr_isOk _ a b, fun l r => rfl,
   fun a b => mkBinaryExpr_isOk _ a b, fun l r => rfl,
   fun a b => mkBinaryExpr_isOk _ a b, fun l r => rfl,
   fun a b => mkBinaryExpr_isOk _ a b, fun l r => rfl,
   fun a b => mkBinaryExpr_isOk _ a b, fun l r => rfl,
   fun a b => mkBinaryExpr_isOk _ a b, fun l r => rfl,
   fun a b => mkBinaryExpr_isOk _ a b, fun l r => rfl,
   fun a b => mkBinaryExpr_isOk _ a b, fun l r => rfl,
   fun a b => mkBinaryExpr_isOk _ a b, fun l r => rfl,
   fun a => mkUnaryExpr_isOk _ a, fun x => rfl,
   fun a => mkUnaryExpr_isOk _ a, fun x => rfl,
   fun a => mkUnaryExpr_isOk _ a, fun x => rfl,
   fun a => mkUnaryExpr_isOk _ a, fun x => rfl,
   fun a => mkUnaryExpr_isOk _ a, fun x => rfl,
   fun a => mkUnaryExpr_isOk _ a, fun x => rfl,
   fun a => mkUnaryExpr_isOk _ a, fun x => rfl,
   fun a => mkUnaryExpr_isOk _ a, fun x => rfl,
   fun a => mkUnaryExpr_isOk _ a, fun x => rfl,
   fun a => mkUnaryExpr_isOk _ a, fun x => rfl,
   fun a => mkUnaryExpr_isOk _ a, fun x => rfl,
   fun a => mkUnaryExpr_isOk _ a, fun x => rfl,
   fun a => mkUnaryExpr_isOk _ a, fun x => rfl,
   fun a => mkUnaryExpr_isOk _ a, fun x => rfl,
   fun i => rfl, rfl, fun n => rfl, rfl, fun n => rfl, fun n => rfl,
   fun n => rfl, fun n => rfl, fun n => rfl⟩

/-! ## Visitor protocol (src/solvers/common/model/constraintvisitor.h) -/

/-- Identifies a visited node, for recording traversal traces. -/
inductive VNode where
  | bN (e : BoolExpr)
  | nN (e : NumExpr)
  | ndN (e : NodeIdExpr)
  | insN (e : InstanceIdExpr)
  | instrN (e : InstructionIdExpr)
  | patN (e : PatternIdExpr)
  | labN (e : LabelIdExpr)
  | regN (e : RegisterIdExpr)
deriving DecidableEq, Repr

/-- One callback invocation of the visitor protocol, recorded as an
event: the four callbacks declared by `ConstraintVisitor`. -/
inductive VisitEvent where
  | beforeVisit (n : VNode)
  | visit (n : VNode)
  | betweenChildrenVisits (n : VNode)
  | afterVisit (n : VNode)
deriving DecidableEq, Repr

/-- Steps 1-5 of the documented walk for a node with no children. -/
def leafTrace (n : VNode) : List VisitEvent :=
  [.beforeVisit n, .visit n, .afterVisit n]

/-- Steps 1-5 of the documented walk for a node with one child whose
subtree trace is `sub`. -/
def unaryTrace (n : VNode) (sub : List VisitEvent) : List VisitEvent :=
  .beforeVisit n :: .visit n :: (sub ++ [.afterVisit n])

/-- Steps 1-5 of the documented walk for a node with two children:
`betweenChildrenVisits` fires between the two subtree traces. -/
def binaryTrace (n : VNode) (subL subR : List VisitEvent) : List VisitEvent :=
  .beforeVisit n :: .visit n ::
    (subL ++ .betweenChildrenVisits n :: subR ++ [.afterVisit n])

/-- Modelled from the spec: the traversal driver of the visitor protocol
(its callback order is documented at the head of
src/solvers/common/model/constraintvisitor.h, lines 80-93, but the walking
code itself is not part of src/): `beforeVisit`, then `visit`, then the
children left to right with `betweenChildrenVisits` between consecutive
children, then `afterVisit`.  Walk of a node-id expression (a leaf). -/
def walkNodeId (e : NodeIdExpr) : List VisitEvent :=
  leafTrace (.ndN e)

/-- Walk of an instance-id expression (see `walkNodeId`). -/
def walkInstanceId : InstanceIdExpr → List VisitEvent
  | .anInstanceId a => leafTrace (.insN (.anInstanceId a))
  | .thisInstanceId => leafTrace (.insN .thisInstanceId)
  | .covererOfActionNode a =>
      unaryTrace (.insN (.covererOfActionNode a)) (walkNodeId a)
  | .definerOfEntityNode a =>
      unaryTrace (.insN (.definerOfEntityNode a)) (walkNodeId a)

/-- Walk of a pattern-id expression (see `walkNodeId`). -/
def walkPatternId : PatternIdExpr → List VisitEvent
  | .aPatternId a => leafTrace (.patN (.aPatternId a))
  | .patternIdOfInstance a =>
      unaryTrace (.patN (.patternIdOfInstance a)) (walkInstanceId a)

/-- Walk of an instruction-id expression (see `walkNodeId`). -/
def walkInstructionId : InstructionIdExpr → List VisitEvent
  | .anInstructionId a => leafTrace (.instrN (.anInstructionId a))
  | .instructionIdOfPattern a =>
      unaryTrace (.instrN (.instructionIdOfPattern a)) (walkPatternId a)

/-- Walk of a label-id expression (see `walkNodeId`). -/
def walkLabelId : LabelIdExpr → List VisitEvent
  | .aLabelId a => leafTrace (.labN (.aLabelId a))
  | .labelIdAllocatedToInstance a =>
      unaryTrace (.labN (.labelIdAllocatedToInstance a)) (walkInstanceId a)
  | .labelIdOfLabelNode a =>
      unaryTrace (.labN (.labelIdOfLabelNode a)) (walkNodeId a)

/-- Walk of a register-id expression (see `walkNodeId`). -/
def walkRegisterId : RegisterIdExpr → List VisitEvent
  | .aRegisterId a => leafTrace (.regN (.aRegisterId a))
  | .registerIdAllocatedToDataNode a =>
      unaryTrace (.regN (.registerIdAllocatedToDataNode a)) (walkNodeId a)

/-- Walk of a numeric expression (see `walkNodeId`). -/
def walkNum : NumExpr → List VisitEvent
  | .plusExpr l r => binaryTrace (.nN (.plusExpr l r)) (walkNum l) (walkNum r)
  | .minusExpr l r => binaryTrace (.nN (.minusExpr l r)) (walkNum l) (walkNum r)
  | .anIntegerExpr a => leafTrace (.nN (.anIntegerExpr a))
  | .nodeIdToNumExpr a => unaryTrace (.nN (.nodeIdToNumExpr a)) (walkNodeId a)
  | .instanceIdToNumExpr a =>
      unaryTrace (.nN (.instanceIdToNumExpr a)) (walkInstanceId a)
  | .instructionIdToNumExpr a =>
      unaryTrace (.nN (.instructionIdToNumExpr a)) (walkInstructionId a)
  | .patternIdToNumExpr a =>
      unaryTrace (.nN (.patternIdToNumExpr a)) (walkPatternId a)
  | .labelIdToNumExpr a => unaryTrace (.nN (.labelIdToNumExpr a)) (walkLabelId a)
  | .registerIdToNumExpr a =>
      unaryTrace (.nN (.registerIdToNumExpr a)) (walkRegisterId a)

/-- Walk of a boolean expression (see `walkNodeId`). -/
def walkBool : BoolExpr → List VisitEvent
  | .eqExpr l r => binaryTrace (.bN (.eqExpr l r)) (walkNum l) (walkNum r)
  | .neqExpr l r => binaryTrace (.bN (.neqExpr l r)) (walkNum l) (walkNum r)
  | .gtExpr l r => binaryTrace (.bN (.gtExpr l r)) (walkNum l) (walkNum r)
  | .geExpr l r => binaryTrace (.bN (.geExpr l r)) (walkNum l) (walkNum r)
  | .ltExpr l r => binaryTrace (.bN (.ltExpr l r)) (walkNum l) (walkNum r)
  | .leExpr l r => binaryTrace (.bN (.leExpr l r)) (walkNum l) (walkNum r)
  | .eqvExpr l r => binaryTrace (.bN (.eqvExpr l r)) (walkBool l) (walkBool r)
  | .impExpr l r => binaryTrace (.bN (.impExpr l r)) (walkBool l) (walkBool r)
  | .andExpr l r => binaryTrace (.bN (.andExpr l r)) (walkBool l) (walkBool r)
  | .orExpr l r => binaryTrace (.bN (.orExpr l r)) (walkBool l) (walkBool r)
  | .notExpr x => unaryTrace (.bN (.notExpr x)) (walkBool x)

/-- Nodes with two children (the only ones for which the walk may fire
`betweenChildrenVisits`). -/
def isBinaryVNode : VNode → Bool
  | .bN (.eqExpr _ _) => true
  | .bN (.neqExpr _ _) => true
  | .bN (.gtExpr _ _) => true
  | .bN (.geExpr _ _) => true
  | .bN (.ltExpr _ _) => true
  | .bN (.leExpr _ _) => true
  | .bN (.eqvExpr _ _) => true
  | .bN (.impExpr _ _) => true
  | .bN (.andExpr _ _) => true
  | .bN (.orExpr _ _) => true
  | .nN (.plusExpr _ _) => true
  | .nN (.minusExpr _ _) => true
  | _ => false

theorem betweenNode_of_mem_walkNodeId {e : NodeIdExpr} {n : VNode}
    (h : VisitEvent.betweenChildrenVisits n ∈ walkNodeId e) :
    isBinaryVNode n = true := by
  simp [walkNodeId, leafTrace] at h

theorem betweenNode_of_mem_walkInstanceId {e : InstanceIdExpr} {n : VNode}
    (h : VisitEvent.betweenChildrenVisits n ∈ walkInstanceId e) :
    isBinaryVNode n = true := by
  cases e <;>
    simp [walkInstanceId, leafTrace, unaryTrace, walkNodeId,
      List.mem_cons, List.mem_append] at h

theorem betweenNode_of_mem_walkPatternId {e : PatternIdExpr} {n : VNode}
    (h : VisitEvent.betweenChildrenVisits n ∈ walkPatternId e) :
    isBinaryVNode n = true := by
  cases e with
  | aPatternId a => simp [walkPatternId, leafTrace] at h
  | patternIdOfInstance a =>
    simp [walkPatternId, unaryTrace, List.mem_cons, List.mem_append] at h
    exact betweenNode_of_mem_walkInstanceId h

theorem betweenNode_of_mem_walkInstructionId {e : InstructionIdExpr} {n : VNode}
    (h : VisitEvent.betweenChildrenVisits n ∈ walkInstructionId e) :
    isBinaryVNode n = true := by
  cases e with
  | anInstructionId a => simp [walkInstructionId, leafTrace] at h
  | instructionIdOfPattern a =>
    simp [walkInstructionId, unaryTrace, List.mem_cons, List.mem_append] at h
    exact betweenNode_of_mem_walkPatternId h

theorem betweenNode_of_mem_walkLabelId {e : LabelIdExpr} {n : VNode}
    (h : VisitEvent.betweenChildrenVisits n ∈ walkLabelId e) :
    isBinaryVNode n = true := by
  cases e with
  | aLabelId a => simp [walkLabelId, leafTrace] at h
  | labelIdAllocatedToInstance a =>
    simp [walkLabelId, unaryTrace, List.mem_cons, List.mem_append] at h
    exact betweenNode_of_mem_walkInstanceId h
  | labelIdOfLabelNode a =>
    simp [walkLabelId, unaryTrace, walkNodeId, leafTrace,
      List.mem_cons, List.mem_append] at h

theorem betweenNode_of_mem_walkRegisterId {e : RegisterIdExpr} {n : VNode}
    (h : VisitEvent.betweenChildrenVisits n ∈ walkRegisterId e) :
    isBinaryVNode n = true := by
  cases e <;>
    simp [walkRegisterId, leafTrace, unaryTrace, walkNodeId,
      List.mem_cons, List.mem_append] at h

theorem betweenNode_of_mem_walkNum {e : NumExpr} {n : VNode}
    (h : VisitEvent.betweenChildrenVisits n ∈ walkNum e) :
    isBinaryVNode n = true := by
  induction e with
  | plusExpr l r ihl ihr =>
    simp [walkNum, binaryTrace, List.mem_cons, List.mem_append] at h
    rcases h with h | rfl | h
    · exact ihl h
    · rfl
    · exact ihr h
  | minusExpr l r ihl ihr =>
    simp [walkNum, binaryTrace, List.mem_cons, List.mem_append] at h
    rcases h with h | rfl | h
    · exact ihl h
    · rfl
    · exact ihr h
  | anIntegerExpr a => simp [walkNum, leafTrace] at h
  | nodeIdToNumExpr a =>
    simp [walkNum, unaryTrace, walkNodeId, leafTrace,
      List.mem_cons, List.mem_append] at h
  | instanceIdToNumExpr a =>
    simp [walkNum, unaryTrace, List.mem_cons, List.mem_append] at h
    exact betweenNode_of_mem_walkInstanceId h
  | instructionIdToNumExpr a =>
    simp [walkNum, unaryTrace, List.mem_cons, List.mem_append] at h
    exact betweenNode_of_mem_walkInstructionId h
  | patternIdToNumExpr a =>
    simp [walkNum, unaryTrace, List.mem_cons, List.mem_append] at h
    exact betweenNode_of_mem_walkPatternId h
  | labelIdToNumExpr a =>
    simp [walkNum, unaryTrace, List.mem_cons, List.mem_append] at h
    exact betweenNode_of_mem_walkLabelId h
  | registerIdToNumExpr a =>
    simp [walkNum, unaryTrace, List.mem_cons, List.mem_append] at h
    exact betweenNode_of_mem_walkRegisterId h

theorem betweenNode_of_mem_walkBool {e : BoolExpr} {n : VNode}
    (h : VisitEvent.betweenChildrenVisits n ∈ walkBool e) :
    isBinaryVNode n = true := by
  induction e with
  | eqExpr l r =>
    simp [walkBool, binaryTrace, List.mem_cons, List.mem_append] at h
    rcases h with h | rfl | h
    · exact betweenNode_of_mem_walkNum h
    · rfl
    · exact betweenNode_of_mem_walkNum h
  | neqExpr l r =>
    simp [walkBool, binaryTrace, List.mem_cons, List.mem_append] at h
    rcases h with h | rfl | h
    · exact betweenNode_of_mem_walkNum h
    · rfl
    · exact betweenNode_of_mem_walkNum h
  | gtExpr l r =>
    simp [walkBool, binaryTrace, List.mem_cons, List.mem_append] at h
    rcases h with h | rfl | h
    · exact betweenNode_of_mem_walkNum h
    · rfl
    · exact betweenNode_of_mem_walkNum h
  | geExpr l r =>
    simp [walkBool, binaryTrace, List.mem_cons, List.mem_append] at h
    rcases h with h | rfl | h
    · exact betweenNode_of_mem_walkNum h
    · rfl
    · exact betweenNode_of_mem_walkNum h
  | ltExpr l r =>
    simp [walkBool, binaryTrace, List.mem_cons, List.mem_append] at h
    rcases h with h | rfl | h
    · exact betweenNode_of_mem_walkNum h
    · rfl
    · exact betweenNode_of_mem_walkNum h
  | leExpr l r =>
    simp [walkBool, binaryTrace, List.mem_cons, List.mem_append] at h
    rcases h with h | rfl | h
    · exact betweenNode_of_mem_walkNum h
    · rfl
    · exact betweenNode_of_mem_walkNum h
  | eqvExpr l r ihl ihr =>
    simp [walkBool, binaryTrace, List.mem_cons, List.mem_append] at h
    rcases h with h | rfl | h
    · exact ihl h
    · rfl
    · exact ihr h
  | impExpr l r ihl ihr =>
    simp [walkBool, binaryTrace, List.mem_cons, List.mem_append] at h
    rcases h with h | rfl | h
    · exact ihl h
    · rfl
    · exact ihr h
  | andExpr l r ihl ihr =>
    simp [walkBool, binaryTrace, List.mem_cons, List.mem_append] at h
    rcases h with h | rfl | h
    · exact ihl h
    · rfl
    · exact ihr h
  | orExpr l r ihl ihr =>
    simp [walkBool, binaryTrace, List.mem_cons, List.mem_append] at h
    rcases h with h | rfl | h
    · exact ihl h
    · rfl
    · exact ihr h
  | notExpr x ih =>
    simp [walkBool, unaryTrace, List.mem_cons, List.mem_append] at h
    exact ih h

/-- C4: the visitor walk invokes the callbacks in the fixed documented
order.  For every binary node with children L and R the trace is
`beforeVisit`, `visit`, L's full subtree trace, `betweenChildrenVisits`,
R's full subtree trace, `afterVisit`; `betweenChildrenVisits` events are
only ever tagged with two-child nodes (so a unary node never triggers it,
stated explicitly for negation); and a leaf node produces exactly
`beforeVisit`, `visit`, `afterVisit` in that order. -/
theorem c4_visitor_ordering :
    (∀ (e : BoolExpr) (n : VNode),
      VisitEvent.betweenChildrenVisits n ∈ walkBool e → isBinaryVNode n = true) ∧
    (∀ x : BoolExpr,
      VisitEvent.betweenChildrenVisits (VNode.bN (BoolExpr.notExpr x))
        ∉ walkBool (BoolExpr.notExpr x)) ∧
    (∀ l r : NumExpr, walkBool (.eqExpr l r)
      = .beforeVisit (.bN (.eqExpr l r)) :: .visit (.bN (.eqExpr l r))
          :: (walkNum l ++ .betweenChildrenVisits (.bN (.eqExpr l r))
                :: walkNum r ++ [.afterVisit (.bN (.eqExpr l r))])) ∧
    (∀ l r : NumExpr, walkBool (.neqExpr l r)
      = .beforeVisit (.bN (.neqExpr l r)) :: .visit (.bN (.neqExpr l r))
          :: (walkNum l ++ .betweenChildrenVisits (.bN (.neqExpr l r))
                :: walkNum r ++ [.afterVisit (.bN (.neqExpr l r))])) ∧
    (∀ l r : NumExpr, walkBool (.gtExpr l r)
      = .beforeVisit (.bN (.gtExpr l r)) :: .visit (.bN (.gtExpr l r))
          :: (walkNum l ++ .betweenChildrenVisits (.bN (.gtExpr l r))
                :: walkNum r ++ [.afterVisit (.bN (.gtExpr l r))])) ∧
    (∀ l r : NumExpr, walkBool (.geExpr l r)
      = .beforeVisit (.bN (.geExpr l r)) :: .visit (.bN (.geExpr l r))
          :: (walkNum l ++ .betweenChildrenVisits (.bN (.geExpr l r))
                :: walkNum r ++ [.afterVisit (.bN (.geExpr l r))])) ∧
    (∀ l r : NumExpr, walkBool (.ltExpr l r)
      = .beforeVisit (.bN (.ltExpr l r)) :: .visit (.bN (.ltExpr l r))
          :: (walkNum l ++ .betweenChildrenVisits (.bN (.ltExpr l r))
                :: walkNum r ++ [.afterVisit (.bN (.ltExpr l r))])) ∧
    (∀ l r : NumExpr, walkBool (.leExpr l r)
      = .beforeVisit (.bN (.leExpr l r)) :: .visit (.bN (.leExpr l r))
          :: (walkNum l ++ .betweenChildrenVisits (.bN (.leExpr l r))
                :: walkNum r ++ [.afterVisit (.bN (.leExpr l r))])) ∧
    (∀ l r : BoolExpr, walkBool (.eqvExpr l r)
      = .beforeVisit (.bN (.eqvExpr l r)) :: .visit (.bN (.eqvExpr l r))
          :: (walkBool l ++ .betweenChildrenVisits (.bN (.eqvExpr l r))
                :: walkBool r ++ [.afterVisit (.bN (.eqvExpr l r))])) ∧
    (∀ l r : BoolExpr, walkBool (.impExpr l r)
      = .beforeVisit (.bN (.impExpr l r)) :: .visit (.bN (.impExpr l r))
          :: (walkBool l ++ .betweenChildrenVisits (.bN (.impExpr l r))
                :: walkBool r ++ [.afterVisit (.bN (.impExpr l r))])) ∧
    (∀ l r : BoolExpr, walkBool (.andExpr l r)
      = .beforeVisit (.bN (.andExpr l r)) :: .visit (.bN (.andExpr l r))
          :: (walkBool l ++ .betweenChildrenVisits (.bN (.andExpr l r))
                :: walkBool r ++ [.afterVisit (.bN (.andExpr l r))])) ∧
    (∀ l r : BoolExpr, walkBool (.orExpr l r)
      = .beforeVisit (.bN (.orExpr l r)) :: .visit (.bN (.orExpr l r))
          :: (walkBool l ++ .betweenChildrenVisits (.bN (.orExpr l r))
                :: walkBool r ++ [.afterVisit (.bN (.orExpr l r))])) ∧
    (∀ l r : NumExpr, walkNum (.plusExpr l r)
      = .beforeVisit (.nN (.plusExpr l r)) :: .visit (.nN (.plusExpr l r))
          :: (walkNum l ++ .betweenChildrenVisits (.nN (.plusExpr l r))
                :: walkNum r ++ [.afterVisit (.nN (.plusExpr l r))])) ∧
    (∀ l r : NumExpr, walkNum (.minusExpr l r)
      = .beforeVisit (.nN (.minusExpr l r)) :: .visit (.nN (.minusExpr l r))
          :: (walkNum l ++ .betweenChildrenVisits (.nN (.minusExpr l r))
                :: walkNum r ++ [.afterVisit (.nN (.minusExpr l r))])) ∧
    (∀ x : BoolExpr, walkBool (.notExpr x)
      = .beforeVisit (.bN (.notExpr x)) :: .visit (.bN (.notExpr x))
          :: (walkBool x ++ [.afterVisit (.bN (.notExpr x))])) ∧
    (∀ a : NodeIdExpr, walkNum (.nodeIdToNumExpr a)
      = .beforeVisit (.nN (.nodeIdToNumExpr a)) :: .visit (.nN (.nodeIdToNumExpr a))
          :: (walkNodeId a ++ [.afterVisit (.nN (.nodeIdToNumExpr a))])) ∧
    (∀ a : InstanceIdExpr, walkNum (.instanceIdToNumExpr a)
      = .beforeVisit (.nN (.instanceIdToNumExpr a))
          :: .visit (.nN (.instanceIdToNumExpr a))
          :: (walkInstanceId a ++ [.afterVisit (.nN (.instanceIdToNumExpr a))])) ∧
    (∀ a : InstructionIdExpr, walkNum (.instructionIdToNumExpr a)
      = .beforeVisit (.nN (.instructionIdToNumExpr a))
          :: .visit (.nN (.instructionIdToNumExpr a))
          :: (walkInstructionId a
                ++ [.afterVisit (.nN (.instructionIdToNumExpr a))])) ∧
    (∀ a : PatternIdExpr, walkNum (.patternIdToNumExpr a)
      = .beforeVisit (.nN (.patternIdToNumExpr a))
          :: .visit (.nN (.patternIdToNumExpr a))
          :: (walkPatternId a ++ [.afterVisit (.nN (.patternIdToNumExpr a))])) ∧
    (∀ a : LabelIdExpr, walkNum (.labelIdToNumExpr a)
      = .beforeVisit (.nN (.labelIdToNumExpr a))
          :: .visit (.nN (.labelIdToNumExpr a))
          :: (walkLabelId a ++ [.afterVisit (.nN (.labelIdToNumExpr a))])) ∧
    (∀ a : RegisterIdExpr, walkNum (.registerIdToNumExpr a)
      = .beforeVisit (.nN (.registerIdToNumExpr a))
          :: .visit (.nN (.registerIdToNumExpr a))
          :: (walkRegisterId a ++ [.afterVisit (.nN (.registerIdToNumExpr a))])) ∧
    (∀ a : NodeIdExpr, walkInstanceId (.covererOfActionNode a)
      = .beforeVisit (.insN (.covererOfActionNode a))
          :: .visit (.insN (.covererOfActionNode a))
          :: (walkNodeId a ++ [.afterVisit (.insN (.covererOfActionNode a))])) ∧
    (∀ a : NodeIdExpr, walkInstanceId (.definerOfEntityNode a)
      = .beforeVisit (.insN (.definerOfEntityNode a))
          :: .visit (.insN (.definerOfEntityNode a))
          :: (walkNodeId a ++ [.afterVisit (.insN (.definerOfEntityNode a))])) ∧
    (∀ a : PatternIdExpr, walkInstructionId (.instructionIdOfPattern a)
      = .beforeVisit (.instrN (.instructionIdOfPattern a))
          :: .visit (.instrN (.instructionIdOfPattern a))
          :: (walkPatternId a
                ++ [.afterVisit (.instrN (.instructionIdOfPattern a))])) ∧
    (∀ a : InstanceIdExpr, walkPatternId (.patternIdOfInstance a)
      = .beforeVisit (.patN (.patternIdOfInstance a))
          :: .visit (.patN (.patternIdOfInstance a))
          :: (walkInstanceId a ++ [.afterVisit (.patN (.patternIdOfInstance a))])) ∧
    (∀ a : InstanceIdExpr, walkLabelId (.labelIdAllocatedToInstance a)
      = .beforeVisit (.labN (.labelIdAllocatedToInstance a))
          :: .visit (.labN (.labelIdAllocatedToInstance a))
          :: (walkInstanceId a
                ++ [.afterVisit (.labN (.labelIdAllocatedToInstance a))])) ∧
    (∀ a : NodeIdExpr, walkLabelId (.labelIdOfLabelNode a)
      = .beforeVisit (.labN (.labelIdOfLabelNode a))
          :: .visit (.labN (.labelIdOfLabelNode a))
          :: (walkNodeId a ++ [.afterVisit (.labN (.labelIdOfLabelNode a))])) ∧
    (∀ a : NodeIdExpr, walkRegisterId (.registerIdAllocatedToDataNode a)
      = .beforeVisit (.regN (.registerIdAllocatedToDataNode a))
          :: .visit (.regN (.registerIdAllocatedToDataNode a))
          :: (walkNodeId a
                ++ [.afterVisit (.regN (.registerIdAllocatedToDataNode a))])) ∧
    (∀ a : AnIntegerExpr, walkNum (.anIntegerExpr a)
      = [.beforeVisit (.nN (.anIntegerExpr a)), .visit (.nN (.anIntegerExpr a)),
         .afterVisit (.nN (.anIntegerExpr a))]) ∧
    (∀ a : ANodeIdExpr, walkNodeId (.aNodeId a)
      = [.beforeVisit (.ndN (.aNodeId a)), .visit (.ndN (.aNodeId a)),
         .afterVisit (.ndN (.aNodeId a))]) ∧
    (∀ a : AnInstanceIdExpr, walkInstanceId (.anInstanceId a)
      = [.beforeVisit (.insN (.anInstanceId a)), .visit (.insN (.anInstanceId a)),
         .afterVisit (.insN (.anInstanceId a))]) ∧
    (walkInstanceId .thisInstanceId
      = [.beforeVisit (.insN .thisInstanceId), .visit (.insN .thisInstanceId),
         .afterVisit (.insN .thisInstanceId)]) ∧
    (∀ a : AnInstructionIdExpr, walkInstructionId (.anInstructionId a)
      = [.beforeVisit (.instrN (.anInstructionId a)),
         .visit (.instrN (.anInstructionId a)),
         .afterVisit (.instrN (.anInstructionId a))]) ∧
    (∀ a : APatternIdExpr, walkPatternId (.aPatternId a)
      = [.beforeVisit (.patN (.aPatternId a)), .visit (.patN (.aPatternId a)),
         .afterVisit (.patN (.aPatternId a))]) ∧
    (∀ a : ALabelIdExpr, walkLabelId (.aLabelId a)
      = [.beforeVisit (.labN (.aLabelId a)), .visit (.labN (.aLabelId a)),
         .afterVisit (.labN (.aLabelId a))]) ∧
    (∀ a : ARegisterIdExpr, walkRegisterId (.aRegisterId a)
      = [.beforeVisit (.regN (.aRegisterId a)), .visit (.regN (.aRegisterId a)),
         .afterVisit (.regN (.aRegisterId a))]) :=
  ⟨fun _ _ h => betweenNode_of_mem_walkBool h,
   fun x h => absurd (betweenNode_of_mem_walkBool h) (by simp [isBinaryVNode]),
   fun l r => rfl, fun l r => rfl, fun l r => rfl, fun l r => rfl,
   fun l r => rfl, fun l r => rfl, fun l r => rfl, fun l r => rfl,
   fun l r => rfl, fun l r => rfl, fun l r => rfl, fun l r => rfl,
   fun x => rfl, fun a => rfl, fun a => rfl, fun a => rfl, fun a => rfl,
   fun a => rfl, fun a => rfl, fun a => rfl, fun a => rfl, fun a => rfl,
   fun a => rfl, fun a => rfl, fun a => rfl, fun a => rfl, fun a => rfl,
   fun a => rfl, fun a => rfl, rfl, fun a => rfl, fun a => rfl, fun a => rfl,
   fun a => rfl⟩

/-- Witness for C4 at concrete trees: the conjunction's two
hypothesis-bearing clauses instantiated at an `and` node and at a `not`
node over the equality of two integer literals. -/
theorem c4_visitor_ordering_witness :
    isBinaryVNode
        (VNode.bN (BoolExpr.andExpr
          (BoolExpr.eqExpr (NumExpr.anIntegerExpr (AnIntegerExpr.mk 1))
            (NumExpr.anIntegerExpr (AnIntegerExpr.mk 1)))
          (BoolExpr.eqExpr (NumExpr.anIntegerExpr (AnIntegerExpr.mk 1))
            (NumExpr.anIntegerExpr (AnIntegerExpr.mk 1))))) = true ∧
      VisitEvent.betweenChildrenVisits
          (VNode.bN (BoolExpr.notExpr
            (BoolExpr.eqExpr (NumExpr.anIntegerExpr (AnIntegerExpr.mk 1))
              (NumExpr.anIntegerExpr (AnIntegerExpr.mk 1)))))
        ∉ walkBool (BoolExpr.notExpr
            (BoolExpr.eqExpr (NumExpr.anIntegerExpr (AnIntegerExpr.mk 1))
              (NumExpr.anIntegerExpr (AnIntegerExpr.mk 1)))) :=
  ⟨c4_visitor_ordering.1
      (BoolExpr.andExpr
        (BoolExpr.eqExpr (NumExpr.anIntegerExpr (AnIntegerExpr.mk 1))
          (NumExpr.anIntegerExpr (AnIntegerExpr.mk 1)))
        (BoolExpr.eqExpr (NumExpr.anIntegerExpr (AnIntegerExpr.mk 1))
          (NumExpr.anIntegerExpr (AnIntegerExpr.mk 1))))
      (VNode.bN (BoolExpr.andExpr
        (BoolExpr.eqExpr (NumExpr.anIntegerExpr (AnIntegerExpr.mk 1))
          (NumExpr.anIntegerExpr (AnIntegerExpr.mk 1)))
        (BoolExpr.eqExpr (NumExpr.anIntegerExpr (AnIntegerExpr.mk 1))
          (NumExpr.anIntegerExpr (AnIntegerExpr.mk 1)))))
      (by decide),
   c4_visitor_ordering.2.1
      (BoolExpr.eqExpr (NumExpr.anIntegerExpr (AnIntegerExpr.mk 1))
        (NumExpr.anIntegerExpr (AnIntegerExpr.mk 1)))⟩

/-! ## MiniZinc emitter (src/solvers/minizinc/constraintprocessor.h) -/

/-- Modelled from the spec: `Model::Params`, the upstream read-only
problem-parameter object (src/solvers/common/model/params.h is not part of
src/).  Its fields stand for the graph, pattern-instance, label and
register universes the spec describes; the modelled emitter fragment only
holds a reference to it and never reads or writes it. -/
structure Params where
  numActionNodes : Nat
  numDataNodes : Nat
  numInstances : Nat
  numLabels : Nat
  numRegisters : Nat
deriving DecidableEq, Repr

/-- Embeds the state of `ConstraintProcessor` (constraintprocessor.h,
lines 251-268): the params object `p_`, the per-call scope flag
`is_processing_pi_constraint_`, and the active pattern instance id
`piid_`. -/
structure ConstraintProcessor where
  p_ : Params
  is_processing_pi_constraint_ : Bool
  piid_ : ModelID
deriving DecidableEq, Repr

/-- Modelled from the spec: rendering of one binary application with the
solver's native infix operator, fully parenthesized (the implementation
file of `ConstraintProcessor` is not part of src/; §4.3 of the spec fixes
the lowering rules). -/
def emitBinary (a b : Except String String) (op : String) :
    Except String String :=
  match a, b with
  | .ok x, .ok y => .ok ("(" ++ x ++ op ++ y ++ ")")
  | .error m, _ => .error m
  | _, .error m => .error m

/-- Modelled from the spec: `process(const Model::NodeIDExpr*)` — a literal
node id renders as its index. -/
def processNodeIdExpr (cp : ConstraintProcessor) :
    NodeIdExpr → Except String String
  | .aNodeId a => .ok (toString a.id_)

/-- Modelled from the spec: `process(const Model::PatternInstanceIDExpr*)`.
The contextual "this instance" node resolves to the active instance id in
per-instance scope and is a context error in whole-function scope; the
coverer and definer derivations render as indexes into the action-coverer
and data-definer decision arrays (the spec fixes the `cover` name; the
definer name is representative). -/
def processInstanceIdExpr (cp : ConstraintProcessor) :
    InstanceIdExpr → Except String String
  | .anInstanceId a => .ok (toString a.id_)
  | .thisInstanceId =>
      if cp.is_processing_pi_constraint_ then .ok (toString cp.piid_)
      else .error "ThisInstanceIdExpr is invalid in this context"
  | .covererOfActionNode a =>
      (processNodeIdExpr cp a).map (fun s => "cover[" ++ s ++ "]")
  | .definerOfEntityNode a =>
      (processNodeIdExpr cp a).map (fun s => "definer[" ++ s ++ "]")

/-- Modelled from the spec: `process(const Model::PatternIDExpr*)` — the
pattern of an instance is the static parameter array `inst_pat`. -/
def processPatternIdExpr (cp : ConstraintProcessor) :
    PatternIdExpr → Except String String
  | .aPatternId a => .ok (toString a.id_)
  | .patternIdOfInstance a =>
      (processInstanceIdExpr cp a).map (fun s => "inst_pat[" ++ s ++ "]")

/-- Modelled from the spec: `process(const Model::InstructionIDExpr*)`
(array name representative). -/
def processInstructionIdExpr (cp : ConstraintProcessor) :
    InstructionIdExpr → Except String String
  | .anInstructionId a => .ok (toString a.id_)
  | .instructionIdOfPattern a =>
      (processPatternIdExpr cp a).map (fun s => "pat_instr[" ++ s ++ "]")

/-- Modelled from the spec: `process(const Model::LabelIDExpr*)` — the
block label chosen for an instance is the `lab` decision array (the spec
fixes that name; the label-of-label-node name is representative). -/
def processLabelIdExpr (cp : ConstraintProcessor) :
    LabelIdExpr → Except String String
  | .aLabelId a => .ok (toString a.id_)
  | .labelIdAllocatedToInstance a =>
      (processInstanceIdExpr cp a).map (fun s => "lab[" ++ s ++ "]")
  | .labelIdOfLabelNode a =>
      (processNodeIdExpr cp a).map (fun s => "node_lab[" ++ s ++ "]")

/-- Modelled from the spec: `process(const Model::RegisterIDExpr*)` — the
register chosen for a data node is the `reg` decision array. -/
def processRegisterIdExpr (cp : ConstraintProcessor) :
    RegisterIdExpr → Except String String
  | .aRegisterId a => .ok (toString a.id_)
  | .registerIdAllocatedToDataNode a =>
      (processNodeIdExpr cp a).map (fun s => "reg[" ++ s ++ "]")

/-- Modelled from the spec: `process(const Model::NumExpr*)` — arithmetic
renders parenthesized infix, integer literals render verbatim, and the
id-to-numeric conversion nodes render as their operand. -/
def processNumExpr (cp : ConstraintProcessor) :
    NumExpr → Except String String
  | .plusExpr l r => emitBinary (processNumExpr cp l) (processNumExpr cp r) " + "
  | .minusExpr l r => emitBinary (processNumExpr cp l) (processNumExpr cp r) " - "
  | .anIntegerExpr a => .ok (toString a.i_)
  | .nodeIdToNumExpr a => processNodeIdExpr cp a
  | .instanceIdToNumExpr a => processInstanceIdExpr cp a
  | .instructionIdToNumExpr a => processInstructionIdExpr cp a
  | .patternIdToNumExpr a => processPatternIdExpr cp a
  | .labelIdToNumExpr a => processLabelIdExpr cp a
  | .registerIdToNumExpr a => processRegisterIdExpr cp a

/-- Modelled from the spec: `process(const Model::BoolExpr*)` —
comparisons and connectives render with MiniZinc's native infix operators,
fully parenthesized. -/
def processBoolExpr (cp : ConstraintProcessor) :
    BoolExpr → Except String String
  | .eqExpr l r => emitBinary (processNumExpr cp l) (processNumExpr cp r) " == "
  | .neqExpr l r => emitBinary (processNumExpr cp l) (processNumExpr cp r) " != "
  | .gtExpr l r => emitBinary (processNumExpr cp l) (processNumExpr cp r) " > "
  | .geExpr l r => emitBinary (processNumExpr cp l) (processNumExpr cp r) " >= "
  | .ltExpr l r => emitBinary (processNumExpr cp l) (processNumExpr cp r) " < "
  | .leExpr l r => emitBinary (processNumExpr cp l) (processNumExpr cp r) " <= "
  | .eqvExpr l r => emitBinary (processBoolExpr cp l) (processBoolExpr cp r) " <-> "
  | .impExpr l r => emitBinary (processBoolExpr cp l) (processBoolExpr cp r) " -> "
  | .andExpr l r => emitBinary (processBoolExpr cp l) (processBoolExpr cp r) " /\\ "
  | .orExpr l r => emitBinary (processBoolExpr cp l) (processBoolExpr cp r) " \\/ "
  | .notExpr x => (processBoolExpr cp x).map (fun s => "(not " ++ s ++ ")")

/-- Modelled from the spec: `process(const Model::Constraint*)` — renders
the constraint's boolean root. -/
def processConstraint (cp : ConstraintProcessor) (c : Constraint) :
    Except String String :=
  processBoolExpr cp c.expr_

/-- Modelled from the spec: `processConstraintForPI` (constraintprocessor.h
lines 57-69): resets the per-call context at the start of the call —
per-instance scope with the given instance id — then renders.  The mutable
emitter object is threaded explicitly, so the call returns the result
together with the updated processor. -/
def processConstraintForPI (cp : ConstraintProcessor) (c : Constraint)
    (id : ModelID) : Except String String × ConstraintProcessor :=
  let cp2 := { cp with is_processing_pi_constraint_ := true, piid_ := id }
  (processConstraint cp2 c, cp2)

/-- Modelled from the spec: `processConstraintForF` (constraintprocessor.h
lines 71-81): resets the per-call context to whole-function scope, then
renders. -/
def processConstraintForF (cp : ConstraintProcessor) (c : Constraint) :
    Except String String × ConstraintProcessor :=
  let cp2 := { cp with is_processing_pi_constraint_ := false }
  (processConstraint cp2 c, cp2)

/-- Whether an instance-id expression is the contextual "this instance"
node (its other variants hold only node-id subtrees, which cannot contain
one). -/
def instanceIdHasThis : InstanceIdExpr → Bool
  | .thisInstanceId => true
  | _ => false

/-- Whether a pattern-id expression contains the contextual node. -/
def patternIdHasThis : PatternIdExpr → Bool
  | .aPatternId _ => false
  | .patternIdOfInstance a => instanceIdHasThis a

/-- Whether an instruction-id expression contains the contextual node. -/
def instructionIdHasThis : InstructionIdExpr → Bool
  | .anInstructionId _ => false
  | .instructionIdOfPattern a => patternIdHasThis a

/-- Whether a label-id expression contains the contextual node. -/
def labelIdHasThis : LabelIdExpr → Bool
  | .aLabelId _ => false
  | .labelIdAllocatedToInstance a => instanceIdHasThis a
  | .labelIdOfLabelNode _ => false

/-- Whether a numeric expression contains the contextual node. -/
def numHasThis : NumExpr → Bool
  | .plusExpr l r => numHasThis l || numHasThis r
  | .minusExpr l r => numHasThis l || numHasThis r
  | .anIntegerExpr _ => false
  | .nodeIdToNumExpr _ => false
  | .instanceIdToNumExpr a => instanceIdHasThis a
  | .instructionIdToNumExpr a => instructionIdHasThis a
  | .patternIdToNumExpr a => patternIdHasThis a
  | .labelIdToNumExpr a => labelIdHasThis a
  | .registerIdToNumExpr _ => false

/-- Whether a boolean expression contains the contextual node. -/
def boolHasThis : BoolExpr → Bool
  | .eqExpr l r => numHasThis l || numHasThis r
  | .neqExpr l r => numHasThis l || numHasThis r
  | .gtExpr l r => numHasThis l || numHasThis r
  | .geExpr l r => numHasThis l || numHasThis r
  | .ltExpr l r => numHasThis l || numHasThis r
  | .leExpr l r => numHasThis l || numHasThis r
  | .eqvExpr l r => boolHasThis l || boolHasThis r
  | .impExpr l r => boolHasThis l || boolHasThis r
  | .andExpr l r => boolHasThis l || boolHasThis r
  | .orExpr l r => boolHasThis l || boolHasThis r
  | .notExpr x => boolHasThis x

/-- Replaces the contextual node by the literal instance id `k`. -/
def substThisInstanceId (k : ModelID) : InstanceIdExpr → InstanceIdExpr
  | .thisInstanceId => .anInstanceId ⟨k⟩
  | e => e

/-- Replaces the contextual node by the literal instance id `k`. -/
def substThisPatternId (k : ModelID) : PatternIdExpr → PatternIdExpr
  | .aPatternId a => .aPatternId a
  | .patternIdOfInstance a => .patternIdOfInstance (substThisInstanceId k a)

/-- Replaces the contextual node by the literal instance id `k`. -/
def substThisInstructionId (k : ModelID) : InstructionIdExpr → InstructionIdExpr
  | .anInstructionId a => .anInstructionId a
  | .instructionIdOfPattern a => .instructionIdOfPattern (substThisPatternId k a)

/-- Replaces the contextual node by the literal instance id `k`. -/
def substThisLabelId (k : ModelID) : LabelIdExpr → LabelIdExpr
  | .aLabelId a => .aLabelId a
  | .labelIdAllocatedToInstance a =>
      .labelIdAllocatedToInstance (substThisInstanceId k a)
  | .labelIdOfLabelNode a => .labelIdOfLabelNode a

/-- Replaces the contextual node by the literal instance id `k`. -/
def substThisNum (k : ModelID) : NumExpr → NumExpr
  | .plusExpr l r => .plusExpr (substThisNum k l) (substThisNum k r)
  | .minusExpr l r => .minusExpr (substThisNum k l) (substThisNum k r)
  | .anIntegerExpr a => .anIntegerExpr a
  | .nodeIdToNumExpr a => .nodeIdToNumExpr a
  | .instanceIdToNumExpr a => .instanceIdToNumExpr (substThisInstanceId k a)
  | .instructionIdToNumExpr a =>
      .instructionIdToNumExpr (substThisInstructionId k a)
  | .patternIdToNumExpr a => .patternIdToNumExpr (substThisPatternId k a)
  | .labelIdToNumExpr a => .labelIdToNumExpr (substThisLabelId k a)
  | .registerIdToNumExpr a => .registerIdToNumExpr a

/-- Replaces the contextual node by the literal instance id `k`. -/
def substThisBool (k : ModelID) : BoolExpr → BoolExpr
  | .eqExpr l r => .eqExpr (substThisNum k l) (substThisNum k r)
  | .neqExpr l r => .neqExpr (substThisNum k l) (substThisNum k r)
  | .gtExpr l r => .gtExpr (substThisNum k l) (substThisNum k r)
  | .geExpr l r => .geExpr (substThisNum k l) (substThisNum k r)
  | .ltExpr l r => .ltExpr (substThisNum k l) (substThisNum k r)
  | .leExpr l r => .leExpr (substThisNum k l) (substThisNum k r)
  | .eqvExpr l r => .eqvExpr (substThisBool k l) (substThisBool k r)
  | .impExpr l r => .impExpr (substThisBool k l) (substThisBool k r)
  | .andExpr l r => .andExpr (substThisBool k l) (substThisBool k r)
  | .orExpr l r => .orExpr (substThisBool k l) (substThisBool k r)
  | .notExpr x => .notExpr (substThisBool k x)

theorem emitBinary_isOk (a b : Except String String) (op : String) :
    (emitBinary a b op).isOk = (a.isOk && b.isOk) := by
  cases a <;> cases b <;> rfl

theorem map_isOk {f : String → String} (a : Except String String) :
    (a.map f).isOk = a.isOk := by
  cases a <;> rfl

theorem processNodeIdExpr_isOk (cp : ConstraintProcessor) (e : NodeIdExpr) :
    (processNodeIdExpr cp e).isOk = true := by
  cases e <;> rfl

theorem processInstanceIdExpr_isOk_of_false {cp : ConstraintProcessor}
    (hf : cp.is_processing_pi_constraint_ = false) (e : InstanceIdExpr) :
    (processInstanceIdExpr cp e).isOk = !(instanceIdHasThis e) := by
  cases e with
  | anInstanceId a => rfl
  | thisInstanceId => simp [processInstanceIdExpr, hf, instanceIdHasThis, Except.isOk, Except.toBool]
  | covererOfActionNode a =>
    simp [processInstanceIdExpr, map_isOk, processNodeIdExpr_isOk, instanceIdHasThis]
  | definerOfEntityNode a =>
    simp [processInstanceIdExpr, map_isOk, processNodeIdExpr_isOk, instanceIdHasThis]

theorem processPatternIdExpr_isOk_of_false {cp : ConstraintProcessor}
    (hf : cp.is_processing_pi_constraint_ = false) (e : PatternIdExpr) :
    (processPatternIdExpr cp e).isOk = !(patternIdHasThis e) := by
  cases e with
  | aPatternId a => rfl
  | patternIdOfInstance a =>
    simp [processPatternIdExpr, map_isOk, patternIdHasThis,
      processInstanceIdExpr_isOk_of_false hf]

theorem processInstructionIdExpr_isOk_of_false {cp : ConstraintProcessor}
    (hf : cp.is_processing_pi_constraint_ = false) (e : InstructionIdExpr) :
    (processInstructionIdExpr cp e).isOk = !(instructionIdHasThis e) := by
  cases e with
  | anInstructionId a => rfl
  | instructionIdOfPattern a =>
    simp [processInstructionIdExpr, map_isOk, instructionIdHasThis,
      processPatternIdExpr_isOk_of_false hf]

theorem processLabelIdExpr_isOk_of_false {cp : ConstraintProcessor}
    (hf : cp.is_processing_pi_constraint_ = false) (e : LabelIdExpr) :
    (processLabelIdExpr cp e).isOk = !(labelIdHasThis e) := by
  cases e with
  | aLabelId a => rfl
  | labelIdAllocatedToInstance a =>
    simp [processLabelIdExpr, map_isOk, labelIdHasThis,
      processInstanceIdExpr_isOk_of_false hf]
  | labelIdOfLabelNode a =>
    simp [processLabelIdExpr, map_isOk, labelIdHasThis, processNodeIdExpr_isOk]

theorem processRegisterIdExpr_isOk (cp : ConstraintProcessor)
    (e : RegisterIdExpr) : (processRegisterIdExpr cp e).isOk = true := by
  cases e with
  | aRegisterId a => rfl
  | registerIdAllocatedToDataNode a =>
    simp [processRegisterIdExpr, map_isOk, processNodeIdExpr_isOk]

theorem processNumExpr_isOk_of_false {cp : ConstraintProcessor}
    (hf : cp.is_processing_pi_constraint_ = false) (e : NumExpr) :
    (processNumExpr cp e).isOk = !(numHasThis e) := by
  induction e with
  | plusExpr l r ihl ihr =>
    simp [processNumExpr, emitBinary_isOk, numHasThis, ihl, ihr]
  | minusExpr l r ihl ihr =>
    simp [processNumExpr, emitBinary_isOk, numHasThis, ihl, ihr]
  | anIntegerExpr a => rfl
  | nodeIdToNumExpr a =>
    simp [processNumExpr, numHasThis, processNodeIdExpr_isOk]
  | instanceIdToNumExpr a =>
    simp [processNumExpr, numHasThis, processInstanceIdExpr_isOk_of_false hf]
  | instructionIdToNumExpr a =>
    simp [processNumExpr, numHasThis, processInstructionIdExpr_isOk_of_false hf]
  | patternIdToNumExpr a =>
    simp [processNumExpr, numHasThis, processPatternIdExpr_isOk_of_false hf]
  | labelIdToNumExpr a =>
    simp [processNumExpr, numHasThis, processLabelIdExpr_isOk_of_false hf]
  | registerIdToNumExpr a =>
    simp [processNumExpr, numHasThis, processRegisterIdExpr_isOk]

theorem processBoolExpr_isOk_of_false {cp : ConstraintProcessor}
    (hf : cp.is_processing_pi_constraint_ = false) (e : BoolExpr) :
    (processBoolExpr cp e).isOk = !(boolHasThis e) := by
  induction e with
  | eqExpr l r =>
    simp [processBoolExpr, emitBinary_isOk, boolHasThis,
      processNumExpr_isOk_of_false hf]
  | neqExpr l r =>
    simp [processBoolExpr, emitBinary_isOk, boolHasThis,
      processNumExpr_isOk_of_false hf]
  | gtExpr l r =>
    simp [processBoolExpr, emitBinary_isOk, boolHasThis,
      processNumExpr_isOk_of_false hf]
  | geExpr l r =>
    simp [processBoolExpr, emitBinary_isOk, boolHasThis,
      processNumExpr_isOk_of_false hf]
  | ltExpr l r =>
    simp [processBoolExpr, emitBinary_isOk, boolHasThis,
      processNumExpr_isOk_of_false hf]
  | leExpr l r =>
    simp [processBoolExpr, emitBinary_isOk, boolHasThis,
      processNumExpr_isOk_of_false hf]
  | eqvExpr l r ihl ihr =>
    simp [processBoolExpr, emitBinary_isOk, boolHasThis, ihl, ihr]
  | impExpr l r ihl ihr =>
    simp [processBoolExpr, emitBinary_isOk, boolHasThis, ihl, ihr]
  | andExpr l r ihl ihr =>
    simp [processBoolExpr, emitBinary_isOk, boolHasThis, ihl, ihr]
  | orExpr l r ihl ihr =>
    simp [processBoolExpr, emitBinary_isOk, boolHasThis, ihl, ihr]
  | notExpr x ih => simp [processBoolExpr, map_isOk, boolHasThis, ih]

theorem processNodeIdExpr_state (cp cp' : ConstraintProcessor)
    (e : NodeIdExpr) : processNodeIdExpr cp e = processNodeIdExpr cp' e := by
  cases e
  rfl

theorem processRegisterIdExpr_state (cp cp' : ConstraintProcessor)
    (e : RegisterIdExpr) :
    processRegisterIdExpr cp e = processRegisterIdExpr cp' e := by
  cases e with
  | aRegisterId a => rfl
  | registerIdAllocatedToDataNode a =>
    simp [processRegisterIdExpr, processNodeIdExpr_state cp cp']

theorem processInstanceIdExpr_subst {cp : ConstraintProcessor}
    (cp' : ConstraintProcessor) {k : ModelID}
    (hf : cp.is_processing_pi_constraint_ = true) (hk : cp.piid_ = k)
    (e : InstanceIdExpr) :
    processInstanceIdExpr cp e
      = processInstanceIdExpr cp' (substThisInstanceId k e) := by
  cases e with
  | anInstanceId a => rfl
  | thisInstanceId =>
    simp [processInstanceIdExpr, substThisInstanceId, hf, ← hk,
      AnInstanceIdExpr.getId]
  | covererOfActionNode a =>
    simp [processInstanceIdExpr, substThisInstanceId,
      processNodeIdExpr_state cp cp']
  | definerOfEntityNode a =>
    simp [processInstanceIdExpr, substThisInstanceId,
      processNodeIdExpr_state cp cp']

theorem processPatternIdExpr_subst {cp : ConstraintProcessor}
    (cp' : ConstraintProcessor) {k : ModelID}
    (hf : cp.is_processing_pi_constraint_ = true) (hk : cp.piid_ = k)
    (e : PatternIdExpr) :
    processPatternIdExpr cp e
      = processPatternIdExpr cp' (substThisPatternId k e) := by
  cases e with
  | aPatternId a => rfl
  | patternIdOfInstance a =>
    simp [processPatternIdExpr, substThisPatternId,
      processInstanceIdExpr_subst cp' hf hk]

theorem processInstructionIdExpr_subst {cp : ConstraintProcessor}
    (cp' : ConstraintProcessor) {k : ModelID}
    (hf : cp.is_processing_pi_constraint_ = true) (hk : cp.piid_ = k)
    (e : InstructionIdExpr) :
    processInstructionIdExpr cp e
      = processInstructionIdExpr cp' (substThisInstructionId k e) := by
  cases e with
  | anInstructionId a => rfl
  | instructionIdOfPattern a =>
    simp [processInstructionIdExpr, substThisInstructionId,
      processPatternIdExpr_subst cp' hf hk]

theorem processLabelIdExpr_subst {cp : ConstraintProcessor}
    (cp' : ConstraintProcessor) {k : ModelID}
    (hf : cp.is_processing_pi_constraint_ = true) (hk : cp.piid_ = k)
    (e : LabelIdExpr) :
    processLabelIdExpr cp e
      = processLabelIdExpr cp' (substThisLabelId k e) := by
  cases e with
  | aLabelId a => rfl
  | labelIdAllocatedToInstance a =>
    simp [processLabelIdExpr, substThisLabelId,
      processInstanceIdExpr_subst cp' hf hk]
  | labelIdOfLabelNode a =>
    simp [processLabelIdExpr, substThisLabelId,
      processNodeIdExpr_state cp cp']

theorem processNumExpr_subst {cp : ConstraintProcessor}
    (cp' : ConstraintProcessor) {k : ModelID}
    (hf : cp.is_processing_pi_constraint_ = true) (hk : cp.piid_ = k)
    (e : NumExpr) :
    processNumExpr cp e = processNumExpr cp' (substThisNum k e) := by
  induction e with
  | plusExpr l r ihl ihr => simp [processNumExpr, substThisNum, ihl, ihr]
  | minusExpr l r ihl ihr => simp [processNumExpr, substThisNum, ihl, ihr]
  | anIntegerExpr a => rfl
  | nodeIdToNumExpr a =>
    simp [processNumExpr, substThisNum, processNodeIdExpr_state cp cp']
  | instanceIdToNumExpr a =>
    simp [processNumExpr, substThisNum, processInstanceIdExpr_subst cp' hf hk]
  | instructionIdToNumExpr a =>
    simp [processNumExpr, substThisNum,
      processInstructionIdExpr_subst cp' hf hk]
  | patternIdToNumExpr a =>
    simp [processNumExpr, substThisNum, processPatternIdExpr_subst cp' hf hk]
  | labelIdToNumExpr a =>
    simp [processNumExpr, substThisNum, processLabelIdExpr_subst cp' hf hk]
  | registerIdToNumExpr a =>
    simp [processNumExpr, substThisNum, processRegisterIdExpr_state cp cp']

theorem processBoolExpr_subst {cp : ConstraintProcessor}
    (cp' : ConstraintProcessor) {k : ModelID}
    (hf : cp.is_processing_pi_constraint_ = true) (hk : cp.piid_ = k)
    (e : BoolExpr) :
    processBoolExpr cp e = processBoolExpr cp' (substThisBool k e) := by
  induction e with
  | eqExpr l r =>
    simp [processBoolExpr, substThisBool, processNumExpr_subst cp' hf hk]
  | neqExpr l r =>
    simp [processBoolExpr, substThisBool, processNumExpr_subst cp' hf hk]
  | gtExpr l r =>
    simp [processBoolExpr, substThisBool, processNumExpr_subst cp' hf hk]
  | geExpr l r =>
    simp [processBoolExpr, substThisBool, processNumExpr_subst cp' hf hk]
  | ltExpr l r =>
    simp [processBoolExpr, substThisBool, processNumExpr_subst cp' hf hk]
  | leExpr l r =>
    simp [processBoolExpr, substThisBool, processNumExpr_subst cp' hf hk]
  | eqvExpr l r ihl ihr => simp [processBoolExpr, substThisBool, ihl, ihr]
  | impExpr l r ihl ihr => simp [processBoolExpr, substThisBool, ihl, ihr]
  | andExpr l r ihl ihr => simp [processBoolExpr, substThisBool, ihl, ihr]
  | orExpr l r ihl ihr => simp [processBoolExpr, substThisBool, ihl, ihr]
  | notExpr x ih => simp [processBoolExpr, substThisBool, ih]

theorem instanceIdHasThis_subst (k : ModelID) (e : InstanceIdExpr) :
    instanceIdHasThis (substThisInstanceId k e) = false := by
  cases e <;> rfl

theorem patternIdHasThis_subst (k : ModelID) (e : PatternIdExpr) :
    patternIdHasThis (substThisPatternId k e) = false := by
  cases e with
  | aPatternId a => rfl
  | patternIdOfInstance a =>
    simp [substThisPatternId, patternIdHasThis, instanceIdHasThis_subst]

theorem instructionIdHasThis_subst (k : ModelID) (e : InstructionIdExpr) :
    instructionIdHasThis (substThisInstructionId k e) = false := by
  cases e with
  | anInstructionId a => rfl
  | instructionIdOfPattern a =>
    simp [substThisInstructionId, instructionIdHasThis, patternIdHasThis_subst]

theorem labelIdHasThis_subst (k : ModelID) (e : LabelIdExpr) :
    labelIdHasThis (substThisLabelId k e) = false := by
  cases e with
  | aLabelId a => rfl
  | labelIdAllocatedToInstance a =>
    simp [substThisLabelId, labelIdHasThis, instanceIdHasThis_subst]
  | labelIdOfLabelNode a => rfl

theorem numHasThis_subst (k : ModelID) (e : NumExpr) :
    numHasThis (substThisNum k e) = false := by
  induction e with
  | plusExpr l r ihl ihr => simp [substThisNum, numHasThis, ihl, ihr]
  | minusExpr l r ihl ihr => simp [substThisNum, numHasThis, ihl, ihr]
  | anIntegerExpr a => rfl
  | nodeIdToNumExpr a => rfl
  | instanceIdToNumExpr a =>
    simp [substThisNum, numHasThis, instanceIdHasThis_subst]
  | instructionIdToNumExpr a =>
    simp [substThisNum, numHasThis, instructionIdHasThis_subst]
  | patternIdToNumExpr a =>
    simp [substThisNum, numHasThis, patternIdHasThis_subst]
  | labelIdToNumExpr a =>
    simp [substThisNum, numHasThis, labelIdHasThis_subst]
  | registerIdToNumExpr a => rfl

theorem boolHasThis_subst (k : ModelID) (e : BoolExpr) :
    boolHasThis (substThisBool k e) = false := by
  induction e with
  | eqExpr l r => simp [substThisBool, boolHasThis, numHasThis_subst]
  | neqExpr l r => simp [substThisBool, boolHasThis, numHasThis_subst]
  | gtExpr l r => simp [substThisBool, boolHasThis, numHasThis_subst]
  | geExpr l r => simp [substThisBool, boolHasThis, numHasThis_subst]
  | ltExpr l r => simp [substThisBool, boolHasThis, numHasThis_subst]
  | leExpr l r => simp [substThisBool, boolHasThis, numHasThis_subst]
  | eqvExpr l r ihl ihr => simp [substThisBool, boolHasThis, ihl, ihr]
  | impExpr l r ihl ihr => simp [substThisBool, boolHasThis, ihl, ihr]
  | andExpr l r ihl ihr => simp [substThisBool, boolHasThis, ihl, ihr]
  | orExpr l r ihl ihr => simp [substThisBool, boolHasThis, ihl, ihr]
  | notExpr x ih => simp [substThisBool, boolHasThis, ih]

theorem processInstanceIdExpr_isOk_of_true {cp : ConstraintProcessor}
    (hf : cp.is_processing_pi_constraint_ = true) (e : InstanceIdExpr) :
    (processInstanceIdExpr cp e).isOk = true := by
  cases e with
  | anInstanceId a => rfl
  | thisInstanceId => simp [processInstanceIdExpr, hf, Except.isOk, Except.toBool]
  | covererOfActionNode a =>
    simp [processInstanceIdExpr, map_isOk, processNodeIdExpr_isOk]
  | definerOfEntityNode a =>
    simp [processInstanceIdExpr, map_isOk, processNodeIdExpr_isOk]

theorem processPatternIdExpr_isOk_of_true {cp : ConstraintProcessor}
    (hf : cp.is_processing_pi_constraint_ = true) (e : PatternIdExpr) :
    (processPatternIdExpr cp e).isOk = true := by
  cases e with
  | aPatternId a => rfl
  | patternIdOfInstance a =>
    simp [processPatternIdExpr, map_isOk, processInstanceIdExpr_isOk_of_true hf]

theorem processInstructionIdExpr_isOk_of_true {cp : ConstraintProcessor}
    (hf : cp.is_processing_pi_constraint_ = true) (e : InstructionIdExpr) :
    (processInstructionIdExpr cp e).isOk = true := by
  cases e with
  | anInstructionId a => rfl
  | instructionIdOfPattern a =>
    simp [processInstructionIdExpr, map_isOk,
      processPatternIdExpr_isOk_of_true hf]

theorem processLabelIdExpr_isOk_of_true {cp : ConstraintProcessor}
    (hf : cp.is_processing_pi_constraint_ = true) (e : LabelIdExpr) :
    (processLabelIdExpr cp e).isOk = true := by
  cases e with
  | aLabelId a => rfl
  | labelIdAllocatedToInstance a =>
    simp [processLabelIdExpr, map_isOk, processInstanceIdExpr_isOk_of_true hf]
  | labelIdOfLabelNode a =>
    simp [processLabelIdExpr, map_isOk, processNodeIdExpr_isOk]

theorem processNumExpr_isOk_of_true {cp : ConstraintProcessor}
    (hf : cp.is_processing_pi_constraint_ = true) (e : NumExpr) :
    (processNumExpr cp e).isOk = true := by
  induction e with
  | plusExpr l r ihl ihr => simp [processNumExpr, emitBinary_isOk, ihl, ihr]
  | minusExpr l r ihl ihr => simp [processNumExpr, emitBinary_isOk, ihl, ihr]
  | anIntegerExpr a => rfl
  | nodeIdToNumExpr a => simp [processNumExpr, processNodeIdExpr_isOk]
  | instanceIdToNumExpr a =>
    simp [processNumExpr, processInstanceIdExpr_isOk_of_true hf]
  | instructionIdToNumExpr a =>
    simp [processNumExpr, processInstructionIdExpr_isOk_of_true hf]
  | patternIdToNumExpr a =>
    simp [processNumExpr, processPatternIdExpr_isOk_of_true hf]
  | labelIdToNumExpr a =>
    simp [processNumExpr, processLabelIdExpr_isOk_of_true hf]
  | registerIdToNumExpr a =>
    simp [processNumExpr, processRegisterIdExpr_isOk]

theorem processBoolExpr_isOk_of_true {cp : ConstraintProcessor}
    (hf : cp.is_processing_pi_constraint_ = true) (e : BoolExpr) :
    (processBoolExpr cp e).isOk = true := by
  induction e with
  | eqExpr l r =>
    simp [processBoolExpr, emitBinary_isOk, processNumExpr_isOk_of_true hf]
  | neqExpr l r =>
    simp [processBoolExpr, emitBinary_isOk, processNumExpr_isOk_of_true hf]
  | gtExpr l r =>
    simp [processBoolExpr, emitBinary_isOk, processNumExpr_isOk_of_true hf]
  | geExpr l r =>
    simp [processBoolExpr, emitBinary_isOk, processNumExpr_isOk_of_true hf]
  | ltExpr l r =>
    simp [processBoolExpr, emitBinary_isOk, processNumExpr_isOk_of_true hf]
  | leExpr l r =>
    simp [processBoolExpr, emitBinary_isOk, processNumExpr_isOk_of_true hf]
  | eqvExpr l r ihl ihr => simp [processBoolExpr, emitBinary_isOk, ihl, ihr]
  | impExpr l r ihl ihr => simp [processBoolExpr, emitBinary_isOk, ihl, ihr]
  | andExpr l r ihl ihr => simp [processBoolExpr, emitBinary_isOk, ihl, ihr]
  | orExpr l r ihl ihr => simp [processBoolExpr, emitBinary_isOk, ihl, ihr]
  | notExpr x ih => simp [processBoolExpr, map_isOk, ih]

/-- C1: emitting a constraint whose tree contains the contextual
"this instance" node in whole-function scope fails; emitting any
constraint in per-instance scope bound to a concrete instance id `k`
succeeds, and its output is exactly the whole-function rendering of the
tree in which every contextual occurrence has been replaced by the literal
instance id `k` — i.e. every occurrence resolves to `k`. -/
theorem c1_this_instance_scope (cp : ConstraintProcessor) (c : Constraint)
    (k : ModelID) :
    (boolHasThis c.getExpr = true →
      ((processConstraintForF cp c).1).isOk = false) ∧
    ((processConstraintForPI cp c k).1).isOk = true ∧
    (processConstraintForPI cp c k).1
      = (processConstraintForF cp
          (Constraint.mk (substThisBool k c.getExpr))).1 := by
  refine ⟨?_, ?_, ?_⟩
  · intro h
    show (processBoolExpr
        { cp with is_processing_pi_constraint_ := false } c.expr_).isOk = false
    rw [processBoolExpr_isOk_of_false rfl,
      show boolHasThis c.expr_ = true from h]
    rfl
  · have h1 := @processBoolExpr_subst
      { cp with is_processing_pi_constraint_ := true, piid_ := k }
      { cp with is_processing_pi_constraint_ := false } k rfl rfl c.expr_
    show (processBoolExpr
        { cp with is_processing_pi_constraint_ := true, piid_ := k }
        c.expr_).isOk = true
    rw [h1, processBoolExpr_isOk_of_false rfl, boolHasThis_subst]
    rfl
  · exact processBoolExpr_subst
      { cp with is_processing_pi_constraint_ := false } rfl rfl c.expr_

/-- Witness for C1 at a concrete constraint containing the contextual
node: whole-function emission fails and per-instance emission bound to
instance id 7 succeeds. -/
theorem c1_this_instance_scope_witness :
    boolHasThis (Constraint.mk (BoolExpr.eqExpr
        (NumExpr.instanceIdToNumExpr InstanceIdExpr.thisInstanceId)
        (NumExpr.anIntegerExpr (AnIntegerExpr.mk 1)))).getExpr = true ∧
      ((processConstraintForF ⟨⟨0, 0, 0, 0, 0⟩, false, 0⟩
          (Constraint.mk (BoolExpr.eqExpr
            (NumExpr.instanceIdToNumExpr InstanceIdExpr.thisInstanceId)
            (NumExpr.anIntegerExpr (AnIntegerExpr.mk 1))))).1).isOk = false ∧
      ((processConstraintForPI ⟨⟨0, 0, 0, 0, 0⟩, false, 0⟩
          (Constraint.mk (BoolExpr.eqExpr
            (NumExpr.instanceIdToNumExpr InstanceIdExpr.thisInstanceId)
            (NumExpr.anIntegerExpr (AnIntegerExpr.mk 1)))) 7).1).isOk = true :=
  ⟨by decide,
   (c1_this_instance_scope ⟨⟨0, 0, 0, 0, 0⟩, false, 0⟩
      (Constraint.mk (BoolExpr.eqExpr
        (NumExpr.instanceIdToNumExpr InstanceIdExpr.thisInstanceId)
        (NumExpr.anIntegerExpr (AnIntegerExpr.mk 1)))) 7).1 (by decide),
   (c1_this_instance_scope ⟨⟨0, 0, 0, 0, 0⟩, false, 0⟩
      (Constraint.mk (BoolExpr.eqExpr
        (NumExpr.instanceIdToNumExpr InstanceIdExpr.thisInstanceId)
        (NumExpr.anIntegerExpr (AnIntegerExpr.mk 1)))) 7).2.1⟩

/-- C5: emission is idempotent: calling the same entry operation again on
the emitter state left behind by the previous call yields the same output
(and the same state), because the per-call scope context is reset at the
start of each entry call. -/
theorem c5_emission_idempotent (cp : ConstraintProcessor) (c : Constraint)
    (k : ModelID) :
    (processConstraintForF ((processConstraintForF cp c).2) c).1
      = (processConstraintForF cp c).1 ∧
    (processConstraintForF ((processConstraintForF cp c).2) c).2
      = (processConstraintForF cp c).2 ∧
    (processConstraintForPI ((processConstraintForPI cp c k).2) c k).1
      = (processConstraintForPI cp c k).1 ∧
    (processConstraintForPI ((processConstraintForPI cp c k).2) c k).2
      = (processConstraintForPI cp c k).2 :=
  ⟨rfl, rfl, rfl, rfl⟩

/-- C6: an equality node over two integer literals valued 1 and 1, emitted
in whole-function scope, yields the single parenthesized equality
"(1 == 1)"; and in general every binary comparison, connective and
arithmetic application renders with the solver's native infix operator,
fully parenthesized. -/
theorem c6_parenthesized_rendering (cp : ConstraintProcessor) :
    (processConstraintForF cp (Constraint.mk (BoolExpr.eqExpr
        (NumExpr.anIntegerExpr (AnIntegerExpr.mk 1))
        (NumExpr.anIntegerExpr (AnIntegerExpr.mk 1))))).1
      = Except.ok "(1 == 1)" ∧
    (∀ (l r : NumExpr) (a b : String),
      processNumExpr cp l = Except.ok a → processNumExpr cp r = Except.ok b →
      processBoolExpr cp (.eqExpr l r)
        = Except.ok ("(" ++ a ++ " == " ++ b ++ ")") ∧
      processBoolExpr cp (.neqExpr l r)
        = Except.ok ("(" ++ a ++ " != " ++ b ++ ")") ∧
      processBoolExpr cp (.gtExpr l r)
        = Except.ok ("(" ++ a ++ " > " ++ b ++ ")") ∧
      processBoolExpr cp (.geExpr l r)
        = Except.ok ("(" ++ a ++ " >= " ++ b ++ ")") ∧
      processBoolExpr cp (.ltExpr l r)
        = Except.ok ("(" ++ a ++ " < " ++ b ++ ")") ∧
      processBoolExpr cp (.leExpr l r)
        = Except.ok ("(" ++ a ++ " <= " ++ b ++ ")") ∧
      processNumExpr cp (.plusExpr l r)
        = Except.ok ("(" ++ a ++ " + " ++ b ++ ")") ∧
      processNumExpr cp (.minusExpr l r)
        = Except.ok ("(" ++ a ++ " - " ++ b ++ ")")) ∧
    (∀ (p q : BoolExpr) (a b : String),
      processBoolExpr cp p = Except.ok a → processBoolExpr cp q = Except.ok b →
      processBoolExpr cp (.eqvExpr p q)
        = Except.ok ("(" ++ a ++ " <-> " ++ b ++ ")") ∧
      processBoolExpr cp (.impExpr p q)
        = Except.ok ("(" ++ a ++ " -> " ++ b ++ ")") ∧
      processBoolExpr cp (.andExpr p q)
        = Except.ok ("(" ++ a ++ " /\\ " ++ b ++ ")") ∧
      processBoolExpr cp (.orExpr p q)
        = Except.ok ("(" ++ a ++ " \\/ " ++ b ++ ")")) := by
  refine ⟨?_, ?_, ?_⟩
  · rfl
  · intro l r a b hl hr
    refine ⟨?_, ?_, ?_, ?_, ?_, ?_, ?_, ?_⟩ <;>
      simp only [processBoolExpr, processNumExpr, hl, hr, emitBinary]
  · intro p q a b hp hq
    refine ⟨?_, ?_, ?_, ?_⟩ <;>
      simp only [processBoolExpr, hp, hq, emitBinary]

/-- Witness for C6 at concrete literal operands. -/
theorem c6_parenthesized_rendering_witness :
    processBoolExpr ⟨⟨0, 0, 0, 0, 0⟩, false, 0⟩
        (BoolExpr.eqExpr (NumExpr.anIntegerExpr (AnIntegerExpr.mk 1))
          (NumExpr.anIntegerExpr (AnIntegerExpr.mk 1)))
      = Except.ok "(1 == 1)" :=
  ((c6_parenthesized_rendering ⟨⟨0, 0, 0, 0, 0⟩, false, 0⟩).2.1
    (NumExpr.anIntegerExpr (AnIntegerExpr.mk 1))
    (NumExpr.anIntegerExpr (AnIntegerExpr.mk 1)) "1" "1" rfl rfl).1

/-- Modelled from the spec: the full mutable footprint of one emission
call — the emitter object (including its params) together with the
constraint tree handed to it.  Threading this record makes the claim that
nothing but the per-call scope context changes directly statable. -/
structure EmitWorld where
  processor : ConstraintProcessor
  constraint : Constraint
deriving DecidableEq, Repr

/-- One `processConstraintForPI` call observed on the whole footprint. -/
def emitForPIWorld (w : EmitWorld) (k : ModelID) :
    Except String String × EmitWorld :=
  let rs := processConstraintForPI w.processor w.constraint k
  (rs.1, { processor := rs.2, constraint := w.constraint })

/-- One `processConstraintForF` call observed on the whole footprint. -/
def emitForFWorld (w : EmitWorld) : Except String String × EmitWorld :=
  let rs := processConstraintForF w.processor w.constraint
  (rs.1, { processor := rs.2, constraint := w.constraint })

/-- C7: an emission call has no side effects beyond the returned text —
whether it returns text or fails, the constraint tree and the upstream
problem-parameter data are unchanged; only the per-call scope context of
the processor may change. -/
theorem c7_emission_frame (w : EmitWorld) (k : ModelID) :
    ((emitForPIWorld w k).2.constraint = w.constraint ∧
      (emitForPIWorld w k).2.processor.p_ = w.processor.p_) ∧
    ((emitForFWorld w).2.constraint = w.constraint ∧
      (emitForFWorld w).2.processor.p_ = w.processor.p_) :=
  ⟨⟨rfl, rfl⟩, ⟨rfl, rfl⟩⟩
